import Mathlib

/-!
Verification of the Praxis execution core against its specification.

Shallow embedding of the Python sources:
  * `src/praxis/core/domain/{enums,order,position,events}.py`
  * `src/praxis/core/trading_state.py`
  * `src/praxis/infrastructure/event_spine.py`
  * `src/praxis/infrastructure/binance_adapter.py`

Modelling conventions:
  * `Decimal` values are modelled as exact rationals (`Rat`); the spec
    declares all monetary/quantity fields to be arbitrary-precision decimal.
  * `datetime` is modelled as milliseconds plus a timezone-awareness flag,
    since the only datetime logic in the embedded code is the
    timezone-awareness validation in `__post_init__`.
  * Python `dict` is modelled as an association list with unique keys:
    assignment replaces in place, otherwise appends; `pop` removes.
  * Fallible constructors (`__post_init__` raising `ValueError`) are
    `Except String`-valued functions carrying the source error messages.
-/

namespace Praxis

/-- Model of a Python `datetime`: epoch milliseconds plus whether the value
carries timezone information (`tzinfo` and a defined `utcoffset`). -/
structure DateTime where
  ms : Int
  tzAware : Bool
deriving DecidableEq, Repr

/-- `OrderSide` from `enums.py`. -/
inductive OrderSide where
  | buy
  | sell
deriving DecidableEq, Repr

/-- `OrderType` from `enums.py`. -/
inductive OrderType where
  | market
  | limit
  | limitIoc
  | stop
  | stopLimit
  | takeProfit
  | tpLimit
  | oco
deriving DecidableEq, Repr

/-- `OrderStatus` from `enums.py`.  Terminal states: FILLED, CANCELED,
REJECTED, EXPIRED. -/
inductive OrderStatus where
  | submitting
  | open_
  | partlyFilled
  | filled
  | canceled
  | rejected
  | expired
deriving DecidableEq, Repr

/-- Lookup in a Python `dict` modelled as an association list. -/
def dictGet {κ α : Type} [DecidableEq κ] (m : List (κ × α)) (k : κ) : Option α :=
  match m with
  | [] => none
  | (k', v) :: rest => if k' = k then some v else dictGet rest k

/-- Assignment `m[k] = v` in a Python `dict`: replace in place if the key is
present, else append at the end (insertion order preserved). -/
def dictSet {κ α : Type} [DecidableEq κ] (m : List (κ × α)) (k : κ) (v : α) :
    List (κ × α) :=
  match m with
  | [] => [(k, v)]
  | (k', v') :: rest => if k' = k then (k', v) :: rest else (k', v') :: dictSet rest k v

/-- `m.pop(k, None)` in a Python `dict` (key removal; keys are unique). -/
def dictErase {κ α : Type} [DecidableEq κ] (m : List (κ × α)) (k : κ) :
    List (κ × α) :=
  match m with
  | [] => []
  | (k', v') :: rest => if k' = k then rest else (k', v') :: dictErase rest k

/-- `Order` dataclass from `order.py`. -/
structure Order where
  client_order_id : String
  venue_order_id : Option String
  account_id : String
  command_id : String
  symbol : String
  side : OrderSide
  order_type : OrderType
  qty : Rat
  filled_qty : Rat
  price : Option Rat
  stop_price : Option Rat
  status : OrderStatus
  created_at : DateTime
  updated_at : DateTime
deriving DecidableEq, Repr

/-- `Order.__post_init__` validation from `order.py`, in source order:
timezone-awareness of `created_at` and `updated_at`, `qty > 0`,
`filled_qty ≥ 0`, `price`/`stop_price` non-negative when set,
`filled_qty ≤ qty`.  There is no check relating `order_type` and `price`. -/
def mkOrder (client_order_id : String) (venue_order_id : Option String)
    (account_id command_id symbol : String) (side : OrderSide)
    (order_type : OrderType) (qty filled_qty : Rat)
    (price stop_price : Option Rat) (status : OrderStatus)
    (created_at updated_at : DateTime) : Except String Order :=
  if ¬ created_at.tzAware then .error "Order.created_at must be timezone-aware"
  else if ¬ updated_at.tzAware then .error "Order.updated_at must be timezone-aware"
  else if qty ≤ 0 then .error "Order.qty must be positive"
  else if filled_qty < 0 then .error "Order.filled_qty must be non-negative"
  else if price.elim false (fun p => decide (p < 0)) then .error "Order.price must be non-negative"
  else if stop_price.elim false (fun p => decide (p < 0)) then .error "Order.stop_price must be non-negative"
  else if qty < filled_qty then .error "Order.filled_qty cannot exceed qty"
  else .ok ⟨client_order_id, venue_order_id, account_id, command_id, symbol, side,
    order_type, qty, filled_qty, price, stop_price, status, created_at, updated_at⟩

/-- `Order.is_terminal` from `order.py`. -/
def Order.is_terminal (o : Order) : Bool :=
  o.status = .filled ∨ o.status = .canceled ∨ o.status = .rejected ∨ o.status = .expired

/-- `Order.remaining_qty` from `order.py`. -/
def Order.remaining_qty (o : Order) : Rat :=
  o.qty - o.filled_qty

/-- `Position` dataclass from `position.py`. -/
structure Position where
  account_id : String
  trade_id : String
  symbol : String
  side : OrderSide
  qty : Rat
  avg_entry_price : Rat
deriving DecidableEq, Repr

/-- `Position.__post_init__` validation from `position.py`: non-empty
string identifiers, `qty ≥ 0`, `avg_entry_price ≥ 0`. -/
def mkPosition (account_id trade_id symbol : String) (side : OrderSide)
    (qty avg_entry_price : Rat) : Except String Position :=
  if account_id = "" then .error "Position.account_id must be a non-empty string"
  else if trade_id = "" then .error "Position.trade_id must be a non-empty string"
  else if symbol = "" then .error "Position.symbol must be a non-empty string"
  else if qty < 0 then .error "Position.qty must be non-negative"
  else if avg_entry_price < 0 then .error "Position.avg_entry_price must be non-negative"
  else .ok ⟨account_id, trade_id, symbol, side, qty, avg_entry_price⟩

/-- `CommandAccepted` event from `events.py`. -/
structure CommandAccepted where
  account_id : String
  timestamp : DateTime
  command_id : String
  trade_id : String
deriving DecidableEq, Repr

/-- `OrderSubmitIntent` event from `events.py`. -/
structure OrderSubmitIntent where
  account_id : String
  timestamp : DateTime
  command_id : String
  trade_id : String
  client_order_id : String
  symbol : String
  side : OrderSide
  order_type : OrderType
  qty : Rat
  price : Option Rat
  stop_price : Option Rat
deriving DecidableEq, Repr

/-- `OrderSubmitted` event from `events.py`. -/
structure OrderSubmitted where
  account_id : String
  timestamp : DateTime
  client_order_id : String
  venue_order_id : String
deriving DecidableEq, Repr

/-- `OrderSubmitFailed` event from `events.py`. -/
structure OrderSubmitFailed where
  account_id : String
  timestamp : DateTime
  client_order_id : String
  reason : String
deriving DecidableEq, Repr

/-- `OrderAcked` event from `events.py`. -/
structure OrderAcked where
  account_id : String
  timestamp : DateTime
  client_order_id : String
  venue_order_id : String
deriving DecidableEq, Repr

/-- `FillReceived` event from `events.py`. -/
structure FillReceived where
  account_id : String
  timestamp : DateTime
  client_order_id : String
  venue_order_id : String
  venue_trade_id : String
  trade_id : String
  command_id : String
  symbol : String
  side : OrderSide
  qty : Rat
  price : Rat
  fee : Rat
  fee_asset : String
  is_maker : Bool
deriving DecidableEq, Repr

/-- `FillReceived.__post_init__` validation from `events.py`: non-empty
identifier strings, timezone-aware timestamp, `qty > 0`, `price > 0`,
`fee ≥ 0`.  Used as a hypothesis wherever a theorem quantifies over fills,
since in the source every constructed `FillReceived` satisfies it. -/
def FillReceived.Valid (f : FillReceived) : Prop :=
  f.account_id ≠ "" ∧ f.timestamp.tzAware = true ∧ f.client_order_id ≠ "" ∧
  f.venue_order_id ≠ "" ∧ f.venue_trade_id ≠ "" ∧ f.trade_id ≠ "" ∧
  f.command_id ≠ "" ∧ f.symbol ≠ "" ∧ f.fee_asset ≠ "" ∧
  0 < f.qty ∧ 0 < f.price ∧ 0 ≤ f.fee

instance (f : FillReceived) : Decidable f.Valid := by
  unfold FillReceived.Valid
  infer_instance

/-- `OrderRejected` event from `events.py`. -/
structure OrderRejected where
  account_id : String
  timestamp : DateTime
  client_order_id : String
  venue_order_id : Option String
  reason : String
deriving DecidableEq, Repr

/-- `OrderCanceled` event from `events.py`. -/
structure OrderCanceled where
  account_id : String
  timestamp : DateTime
  client_order_id : String
  venue_order_id : Option String
  reason : Option String
deriving DecidableEq, Repr

/-- `OrderExpired` event from `events.py`. -/
structure OrderExpired where
  account_id : String
  timestamp : DateTime
  client_order_id : String
  venue_order_id : Option String
deriving DecidableEq, Repr

/-- `TradeClosed` event from `events.py`. -/
structure TradeClosed where
  account_id : String
  timestamp : DateTime
  trade_id : String
  command_id : String
deriving DecidableEq, Repr

/-- The `Event` sum type from `events.py`. -/
inductive Event where
  | commandAccepted (e : CommandAccepted)
  | orderSubmitIntent (e : OrderSubmitIntent)
  | orderSubmitted (e : OrderSubmitted)
  | orderSubmitFailed (e : OrderSubmitFailed)
  | orderAcked (e : OrderAcked)
  | fillReceived (e : FillReceived)
  | orderRejected (e : OrderRejected)
  | orderCanceled (e : OrderCanceled)
  | orderExpired (e : OrderExpired)
  | tradeClosed (e : TradeClosed)
deriving DecidableEq, Repr

/-- `event.timestamp`, shared by all variants (`_EventBase`). -/
def Event.timestamp : Event → DateTime
  | .commandAccepted e => e.timestamp
  | .orderSubmitIntent e => e.timestamp
  | .orderSubmitted e => e.timestamp
  | .orderSubmitFailed e => e.timestamp
  | .orderAcked e => e.timestamp
  | .fillReceived e => e.timestamp
  | .orderRejected e => e.timestamp
  | .orderCanceled e => e.timestamp
  | .orderExpired e => e.timestamp
  | .tradeClosed e => e.timestamp

/-- `type(event).__name__`, as used by the Spine's event registry. -/
def Event.typeName : Event → String
  | .commandAccepted _ => "CommandAccepted"
  | .orderSubmitIntent _ => "OrderSubmitIntent"
  | .orderSubmitted _ => "OrderSubmitted"
  | .orderSubmitFailed _ => "OrderSubmitFailed"
  | .orderAcked _ => "OrderAcked"
  | .fillReceived _ => "FillReceived"
  | .orderRejected _ => "OrderRejected"
  | .orderCanceled _ => "OrderCanceled"
  | .orderExpired _ => "OrderExpired"
  | .tradeClosed _ => "TradeClosed"

/-- `TradingState` from `trading_state.py`: the in-memory projection.
`positions` is keyed by `(trade_id, account_id)`, the order maps by
`client_order_id`. -/
structure TradingState where
  account_id : String
  positions : List ((String × String) × Position)
  orders : List (String × Order)
  closed_orders : List (String × Order)
deriving DecidableEq, Repr

/-- `TradingState.__init__` (after the non-empty `account_id` check). -/
def TradingState.init (account_id : String) : TradingState :=
  ⟨account_id, [], [], []⟩

/-- `TradingState._close_order`: move an order from the open map to the
closed map; warn and do nothing when the id is unknown. -/
def TradingState.closeOrder (s : TradingState) (client_order_id : String) :
    TradingState :=
  match dictGet s.orders client_order_id with
  | none => s
  | some o =>
      { s with
        orders := dictErase s.orders client_order_id
        closed_orders := dictSet s.closed_orders client_order_id o }

/-- `TradingState._on_order_submit_intent`: create a new order in
SUBMITTING state.  The source constructs `Order(...)`, whose
`__post_init__` may raise; the error channel is propagated. -/
def TradingState.onOrderSubmitIntent (s : TradingState) (e : OrderSubmitIntent) :
    Except String TradingState :=
  (mkOrder e.client_order_id none e.account_id e.command_id e.symbol e.side
      e.order_type e.qty 0 e.price e.stop_price .submitting e.timestamp
      e.timestamp).map
    fun o => { s with orders := dictSet s.orders e.client_order_id o }

/-- `TradingState._on_order_submitted`: set venue id, transition to OPEN. -/
def TradingState.onOrderSubmitted (s : TradingState) (e : OrderSubmitted) :
    TradingState :=
  match dictGet s.orders e.client_order_id with
  | none => s
  | some o =>
      { s with
        orders := dictSet s.orders e.client_order_id
          { o with venue_order_id := some e.venue_order_id, status := .open_,
                   updated_at := e.timestamp } }

/-- `TradingState._on_order_submit_failed`: REJECTED, then close. -/
def TradingState.onOrderSubmitFailed (s : TradingState) (e : OrderSubmitFailed) :
    TradingState :=
  match dictGet s.orders e.client_order_id with
  | none => s
  | some o =>
      let o := { o with status := OrderStatus.rejected, updated_at := e.timestamp }
      let s := { s with orders := dictSet s.orders e.client_order_id o }
      TradingState.closeOrder s e.client_order_id

/-- `TradingState._on_order_acked`: set venue id; promote to OPEN only when
still SUBMITTING. -/
def TradingState.onOrderAcked (s : TradingState) (e : OrderAcked) :
    TradingState :=
  match dictGet s.orders e.client_order_id with
  | none => s
  | some o =>
      let o := { o with venue_order_id := some e.venue_order_id }
      let o := if o.status = .submitting then { o with status := .open_ } else o
      { s with
        orders := dictSet s.orders e.client_order_id
          { o with updated_at := e.timestamp } }

/-- `TradingState._update_order_on_fill`: accumulate `filled_qty`; on
`filled_qty ≥ qty` set FILLED and close, else PARTIALLY_FILLED.  There is
no cap on the accumulated quantity. -/
def TradingState.updateOrderOnFill (s : TradingState) (e : FillReceived) :
    TradingState :=
  match dictGet s.orders e.client_order_id with
  | none => s
  | some o =>
      let o := { o with filled_qty := o.filled_qty + e.qty,
                        updated_at := e.timestamp }
      if o.qty ≤ o.filled_qty then
        let o := { o with status := OrderStatus.filled }
        let s := { s with orders := dictSet s.orders e.client_order_id o }
        TradingState.closeOrder s e.client_order_id
      else
        let o := { o with status := OrderStatus.partlyFilled }
        { s with orders := dictSet s.orders e.client_order_id o }

/-- `TradingState._update_position_on_fill`: create a position on the first
fill; merge same-side fills with the incremental VWAP; opposite-side fills
decrement `qty` and preserve `avg_entry_price` (warning, no clamp, when it
goes negative).  Creation runs `Position.__post_init__`; the same-side
merge divides by `pos.qty + event.qty`, which in `Decimal` raises on a
zero divisor — both failure channels are surfaced as errors. -/
def TradingState.updatePositionOnFill (s : TradingState) (e : FillReceived) :
    Except String TradingState :=
  let key := (e.trade_id, e.account_id)
  match dictGet s.positions key with
  | none =>
      (mkPosition e.account_id e.trade_id e.symbol e.side e.qty e.price).map
        fun p => { s with positions := dictSet s.positions key p }
  | some p =>
      if e.side = p.side then
        let newQty := p.qty + e.qty
        if newQty = 0 then .error "DivisionByZero"
        else
          let p := { p with
            avg_entry_price := (p.qty * p.avg_entry_price + e.qty * e.price) / newQty
            qty := newQty }
          .ok { s with positions := dictSet s.positions key p }
      else
        let p := { p with qty := p.qty - e.qty }
        .ok { s with positions := dictSet s.positions key p }

/-- `TradingState._on_fill_received`: order update, then position update. -/
def TradingState.onFillReceived (s : TradingState) (e : FillReceived) :
    Except String TradingState :=
  TradingState.updatePositionOnFill (TradingState.updateOrderOnFill s e) e

/-- `TradingState._on_order_rejected`. -/
def TradingState.onOrderRejected (s : TradingState) (e : OrderRejected) :
    TradingState :=
  match dictGet s.orders e.client_order_id with
  | none => s
  | some o =>
      let o := match e.venue_order_id with
        | some v => { o with venue_order_id := some v }
        | none => o
      let o := { o with status := OrderStatus.rejected, updated_at := e.timestamp }
      let s := { s with orders := dictSet s.orders e.client_order_id o }
      TradingState.closeOrder s e.client_order_id

/-- `TradingState._on_order_canceled`. -/
def TradingState.onOrderCanceled (s : TradingState) (e : OrderCanceled) :
    TradingState :=
  match dictGet s.orders e.client_order_id with
  | none => s
  | some o =>
      let o := match e.venue_order_id with
        | some v => { o with venue_order_id := some v }
        | none => o
      let o := { o with status := OrderStatus.canceled, updated_at := e.timestamp }
      let s := { s with orders := dictSet s.orders e.client_order_id o }
      TradingState.closeOrder s e.client_order_id

/-- `TradingState._on_order_expired`. -/
def TradingState.onOrderExpired (s : TradingState) (e : OrderExpired) :
    TradingState :=
  match dictGet s.orders e.client_order_id with
  | none => s
  | some o =>
      let o := match e.venue_order_id with
        | some v => { o with venue_order_id := some v }
        | none => o
      let o := { o with status := OrderStatus.expired, updated_at := e.timestamp }
      let s := { s with orders := dictSet s.orders e.client_order_id o }
      TradingState.closeOrder s e.client_order_id

/-- `TradingState._on_trade_closed`: remove the position (warn if absent). -/
def TradingState.onTradeClosed (s : TradingState) (e : TradeClosed) :
    TradingState :=
  { s with positions := dictErase s.positions (e.trade_id, s.account_id) }

/-- `TradingState.apply`: dispatch a single event to the projection. -/
def TradingState.apply (s : TradingState) (ev : Event) :
    Except String TradingState :=
  match ev with
  | .commandAccepted _ => .ok s
  | .orderSubmitIntent e => s.onOrderSubmitIntent e
  | .orderSubmitted e => .ok (s.onOrderSubmitted e)
  | .orderSubmitFailed e => .ok (s.onOrderSubmitFailed e)
  | .orderAcked e => .ok (s.onOrderAcked e)
  | .fillReceived e => s.onFillReceived e
  | .orderRejected e => .ok (s.onOrderRejected e)
  | .orderCanceled e => .ok (s.onOrderCanceled e)
  | .orderExpired e => .ok (s.onOrderExpired e)
  | .tradeClosed e => .ok (s.onTradeClosed e)

/-- Sequential application of a list of events, as in recovery replay. -/
def TradingState.applyAll (s : TradingState) (evs : List Event) :
    Except String TradingState :=
  evs.foldlM TradingState.apply s

/-!  Event Spine (`event_spine.py`).

The `events` table has `event_seq INTEGER PRIMARY KEY AUTOINCREMENT`: a
single table-wide counter assigns the next sequence number regardless of
`epoch_id`.  `fill_dedup` has `UNIQUE(epoch_id, account_id, dedup_key)` and
`append` inserts `(epoch_id, event.account_id, event.venue_trade_id)` with
`INSERT OR IGNORE` before inserting a `FillReceived` row.  Serialisation of
the payload is not modelled; the row keeps the event itself.  The
"Unregistered event type" branch of `append` is unreachable in the typed
model because every `Event` variant is in `_EVENT_REGISTRY`. -/

/-- One row of the `events` table. -/
structure SpineRow where
  event_seq : Nat
  epoch_id : Nat
  timestamp : DateTime
  event_type : String
  payload : Event
deriving DecidableEq, Repr

/-- The Spine's persistent state: the `events` table (in insertion order),
the `fill_dedup` table, and the AUTOINCREMENT counter (next `event_seq`). -/
structure SpineState where
  events : List SpineRow
  fill_dedup : List (Nat × String × String)
  next_seq : Nat
deriving DecidableEq, Repr

/-- Freshly created schema: empty tables, first AUTOINCREMENT value 1. -/
def spineInit : SpineState :=
  ⟨[], [], 1⟩

/-- `EventSpine.append`: for `FillReceived`, first `INSERT OR IGNORE` into
`fill_dedup`; a duplicate key means the fill is silently dropped and `none`
returned.  Otherwise the event row is inserted with the next sequence
number, which is returned. -/
def spineAppend (s : SpineState) (ev : Event) (epoch_id : Nat) :
    Option Nat × SpineState :=
  let insertRow (s : SpineState) : Option Nat × SpineState :=
    let row : SpineRow := ⟨s.next_seq, epoch_id, ev.timestamp, ev.typeName, ev⟩
    (some s.next_seq, { s with events := s.events ++ [row], next_seq := s.next_seq + 1 })
  match ev with
  | .fillReceived f =>
      let key := (epoch_id, f.account_id, f.venue_trade_id)
      if key ∈ s.fill_dedup then (none, s)
      else insertRow { s with fill_dedup := s.fill_dedup ++ [key] }
  | _ => insertRow s

/-- A sequence of `append` calls, each with its own epoch. -/
def spineAppendAll (s : SpineState) (ops : List (Event × Nat)) : SpineState :=
  ops.foldl (fun s op => (spineAppend s op.1 op.2).2) s

/-- The sequence numbers assigned to one epoch's events, in table order
(as returned by `read`, which orders by `event_seq`). -/
def seqsOf (epoch_id : Nat) (s : SpineState) : List Nat :=
  (s.events.filter (fun r => r.epoch_id = epoch_id)).map (fun r => r.event_seq)

/-!  Binance Spot adapter (`binance_adapter.py`): HTTP error
classification and the retry loop of `_signed_request`.

An HTTP response is modelled by its status code plus the result of
`response.json()` on the 400-level body: `some (code, msg)` when the body
parses to a JSON object with an integer `code` and a `msg`, `none` when
any of `ValueError`, `KeyError` or `TypeError` is raised while parsing. -/

/-- The `VenueError` taxonomy from `venue_adapter.py`. -/
inductive VenueErr where
  | authenticationError (msg : String)
  | rateLimitError (msg : String)
  | transientError (msg : String)
  | notFoundError (msg : String)
  | orderRejectedError (msg : String) (venue_code : Int) (reason : String)
deriving DecidableEq, Repr

/-- Whether an error is `TransientError` (the only `VenueError` subclass
the retry loop catches for retrying). -/
def VenueErr.isTransient : VenueErr → Bool
  | .transientError _ => true
  | _ => false

/-- `_NOT_FOUND_CODES` from `binance_adapter.py`. -/
def notFoundCodes : List Int := [-2013, -2011]

/-- `BinanceAdapter._raise_on_error`: classify an HTTP response.
`body` is the parse result of the JSON body (used only on the 400 path). -/
def raiseOnError (status : Nat) (body : Option (Int × String)) :
    Except VenueErr Unit :=
  if status < 400 then .ok ()
  else if status = 401 then
    .error (.authenticationError s!"Authentication failed: HTTP {status}")
  else if status = 403 ∨ status = 418 ∨ status = 429 then
    .error (.rateLimitError s!"Rate limited: HTTP {status}")
  else if 500 ≤ status then
    .error (.transientError s!"Venue server error: HTTP {status}")
  else
    let vc : Int × String := match body with
      | some (code, msg) => (code, msg)
      | none => (-1, s!"HTTP {status}")
    let code := vc.1
    let reason := vc.2
    if code ∈ notFoundCodes then
      .error (.notFoundError s!"Not found: {reason} (code {code})")
    else
      .error (.orderRejectedError s!"Order rejected: {reason} (code {code})" code reason)

/-- What one HTTP attempt of `_signed_request` observes: either a response
with a status, a parsed-error body and (for the success path) the JSON
payload, or a transport-level failure (`aiohttp.ClientError`,
`TimeoutError`, `ValueError`). -/
inductive HttpAttempt where
  | http (status : Nat) (body : Option (Int × String)) (data : String)
  | transport (msg : String)
deriving DecidableEq, Repr

/-- `_MAX_RETRIES` from `binance_adapter.py`. -/
def maxRetries : Nat := 3

/-- `_RETRY_BASE_DELAY` from `binance_adapter.py` (0.5 seconds). -/
def retryBaseDelay : Rat := 1 / 2

/-- Observable outcome of `_signed_request`: the returned value or raised
error, the indices of the attempts dispatched, the delays passed to
`asyncio.sleep`, and the attempt numbers of the emitted retry warnings
(as logged, 1-based). -/
structure RequestTrace where
  result : Except VenueErr String
  calls : List Nat
  sleeps : List Rat
  warns : List Nat
deriving Repr

/-- The retry loop body of `_signed_request`.  `rand attempt` models
`random.uniform(0, 0.5 * 2 ** attempt)`; `env attempt` the venue's answer
to the attempt.  `rem` is the number of loop iterations left
(`maxRetries - attempt`); the `rem = 0` fallback mirrors the
`assert last_error is not None; raise last_error` epilogue and is reached
only after a retried final attempt, where `lastErr` is set. -/
def signedRequestGo (rand : Nat → Rat) (env : Nat → HttpAttempt) :
    Nat → Nat → Option VenueErr → List Nat → List Rat → List Nat → RequestTrace
  | 0, _, lastErr, calls, sleeps, warns =>
      ⟨.error (lastErr.getD (.transientError "")), calls, sleeps, warns⟩
  | rem + 1, attempt, _lastErr, calls, sleeps, warns =>
      let calls := calls ++ [attempt]
      match env attempt with
      | .http status body data =>
          match raiseOnError status body with
          | .ok _ => ⟨.ok data, calls, sleeps, warns⟩
          | .error e =>
              if e.isTransient then
                if attempt + 1 = maxRetries then ⟨.error e, calls, sleeps, warns⟩
                else
                  let delay := rand attempt
                  signedRequestGo rand env rem (attempt + 1) (some e) calls
                    (sleeps ++ [delay]) (warns ++ [attempt + 1])
              else ⟨.error e, calls, sleeps, warns⟩
      | .transport msg =>
          let e := VenueErr.transientError s!"Request failed: {msg}"
          if attempt + 1 = maxRetries then ⟨.error e, calls, sleeps, warns⟩
          else
            let delay := rand attempt
            signedRequestGo rand env rem (attempt + 1) (some e) calls
              (sleeps ++ [delay]) (warns ++ [attempt + 1])

/-- `BinanceAdapter._signed_request`, observed as a trace: runs the
`for attempt in range(_MAX_RETRIES)` loop from attempt 0. -/
def signedRequest (rand : Nat → Rat) (env : Nat → HttpAttempt) : RequestTrace :=
  signedRequestGo rand env maxRetries 0 none [] [] []

/-!  Binance request signer (`BinanceAdapter._sign_params`).

Strings on the wire are modelled as byte lists (`Python str.encode()`);
`urlencode` is `urllib.parse.urlencode` with its default `quote_plus`
quoting, and the HMAC-SHA256 / lowercase hex digest pipeline is
implemented in full (FIPS 180-4 / RFC 2104). -/

/-- A byte string: each element is a byte value (< 256 for real inputs). -/
abbrev Bytes := List Nat

/-- ASCII bytes of a Lean string literal (used for ASCII constants only). -/
def strBytes (s : String) : Bytes :=
  s.data.map Char.toNat

/-- Decimal ASCII representation of a natural number, as `str(n)`. -/
def natDecimal (n : Nat) : Bytes :=
  (Nat.toDigits 10 n).map Char.toNat

/-- Characters `quote_plus` leaves unescaped: ASCII alphanumerics and
`_.-~`. -/
def isUrlSafe (b : Nat) : Bool :=
  (65 ≤ b ∧ b ≤ 90) ∨ (97 ≤ b ∧ b ≤ 122) ∨ (48 ≤ b ∧ b ≤ 57) ∨
    b = 95 ∨ b = 46 ∨ b = 45 ∨ b = 126

/-- Uppercase hex digit byte for a nibble, as used in `%XX` escapes. -/
def hexUpper (n : Nat) : Nat :=
  if n < 10 then 48 + n else 55 + n

/-- `quote_plus` on one byte: space becomes `+`, safe bytes pass through,
anything else becomes `%XX`. -/
def quoteByte (b : Nat) : Bytes :=
  if b = 32 then [43]
  else if isUrlSafe b then [b]
  else [37, hexUpper (b / 16), hexUpper (b % 16)]

/-- `quote_plus` on a byte string. -/
def quotePlus (bs : Bytes) : Bytes :=
  (bs.map quoteByte).flatten

/-- `urllib.parse.urlencode`: `k=v` pairs joined with `&`, keys and values
quoted with `quote_plus`. -/
def urlencode (params : List (Bytes × Bytes)) : Bytes :=
  List.intercalate [38] (params.map (fun kv => quotePlus kv.1 ++ [61] ++ quotePlus kv.2))

/-- Addition modulo 2^32. -/
def add32 (a b : Nat) : Nat :=
  (a + b) % 4294967296

/-- Right rotation of a 32-bit word. -/
def rotr32 (n x : Nat) : Nat :=
  (x >>> n) ||| ((x % 2 ^ n) <<< (32 - n))

/-- SHA-256 round constants. -/
def sha256K : List Nat :=
  [1116352408, 1899447441, 3049323471, 3921009573, 961987163,
   1508970993, 2453635748, 2870763221, 3624381080, 310598401,
   607225278, 1426881987, 1925078388, 2162078206, 2614888103,
   3248222580, 3835390401, 4022224774, 264347078, 604807628,
   770255983, 1249150122, 1555081692, 1996064986, 2554220882,
   2821834349, 2952996808, 3210313671, 3336571891, 3584528711,
   113926993, 338241895, 666307205, 773529912, 1294757372,
   1396182291, 1695183700, 1986661051, 2177026350, 2456956037,
   2730485921, 2820302411, 3259730800, 3345764771, 3516065817,
   3600352804, 4094571909, 275423344, 430227734, 506948616,
   659060556, 883997877, 958139571, 1322822218, 1537002063,
   1747873779, 1955562222, 2024104815, 2227730452, 2361852424,
   2428436474, 2756734187, 3204031479, 3329325298]

/-- The eight 32-bit words of a SHA-256 hash state. -/
structure Hash8 where
  a : Nat
  b : Nat
  c : Nat
  d : Nat
  e : Nat
  f : Nat
  g : Nat
  h : Nat
deriving DecidableEq, Repr

/-- SHA-256 initial hash value. -/
def sha256H0 : Hash8 :=
  ⟨1779033703, 3144134277, 1013904242, 2773480762,
   1359893119, 2600822924, 528734635, 1541459225⟩

/-- Big-endian 8-byte encoding of the message bit length. -/
def be64 (n : Nat) : Bytes :=
  [n >>> 56 % 256, n >>> 48 % 256, n >>> 40 % 256, n >>> 32 % 256,
   n >>> 24 % 256, n >>> 16 % 256, n >>> 8 % 256, n % 256]

/-- Big-endian 4-byte encoding of a 32-bit word. -/
def be32 (n : Nat) : Bytes :=
  [n >>> 24 % 256, n >>> 16 % 256, n >>> 8 % 256, n % 256]

/-- SHA-256 message padding: `0x80`, zeros to 56 mod 64, then the bit
length in 8 big-endian bytes. -/
def sha256Pad (msg : Bytes) : Bytes :=
  msg ++ [128] ++ List.replicate ((119 - msg.length % 64) % 64) 0 ++ be64 (8 * msg.length)

/-- The 16 big-endian words of one 64-byte block. -/
def blockWords (block : Bytes) : List Nat :=
  (List.range 16).map fun i =>
    block.getD (4 * i) 0 * 16777216 + block.getD (4 * i + 1) 0 * 65536 +
      block.getD (4 * i + 2) 0 * 256 + block.getD (4 * i + 3) 0

/-- Message-schedule extension of the 16 block words to 64 words. -/
def extendWords (w16 : List Nat) : List Nat :=
  (List.range 48).foldl
    (fun w _ =>
      let i := w.length
      let s0 := rotr32 7 (w.getD (i - 15) 0) ^^^ rotr32 18 (w.getD (i - 15) 0) ^^^
        (w.getD (i - 15) 0 >>> 3)
      let s1 := rotr32 17 (w.getD (i - 2) 0) ^^^ rotr32 19 (w.getD (i - 2) 0) ^^^
        (w.getD (i - 2) 0 >>> 10)
      w ++ [add32 (add32 (w.getD (i - 16) 0) s0) (add32 (w.getD (i - 7) 0) s1)])
    w16

/-- The SHA-256 compression function on one block's 64-word schedule. -/
def sha256Compress (hs : Hash8) (w : List Nat) : Hash8 :=
  let r := (List.range 64).foldl
    (fun (s : Hash8) i =>
      let bs1 := rotr32 6 s.e ^^^ rotr32 11 s.e ^^^ rotr32 25 s.e
      let ch := (s.e &&& s.f) ^^^ ((s.e ^^^ 4294967295) &&& s.g)
      let t1 := add32 s.h (add32 bs1 (add32 ch (add32 (sha256K.getD i 0) (w.getD i 0))))
      let bs0 := rotr32 2 s.a ^^^ rotr32 13 s.a ^^^ rotr32 22 s.a
      let mj := (s.a &&& s.b) ^^^ (s.a &&& s.c) ^^^ (s.b &&& s.c)
      let t2 := add32 bs0 mj
      ⟨add32 t1 t2, s.a, s.b, s.c, add32 s.d t1, s.e, s.f, s.g⟩)
    hs
  ⟨add32 hs.a r.a, add32 hs.b r.b, add32 hs.c r.c, add32 hs.d r.d,
   add32 hs.e r.e, add32 hs.f r.f, add32 hs.g r.g, add32 hs.h r.h⟩

/-- SHA-256 of a byte string, as a 32-byte digest. -/
def sha256 (msg : Bytes) : Bytes :=
  let padded := sha256Pad msg
  let blocks := (List.range (padded.length / 64)).map
    fun i => (padded.drop (64 * i)).take 64
  let final := blocks.foldl
    (fun hs block => sha256Compress hs (extendWords (blockWords block))) sha256H0
  be32 final.a ++ be32 final.b ++ be32 final.c ++ be32 final.d ++
    be32 final.e ++ be32 final.f ++ be32 final.g ++ be32 final.h

/-- HMAC-SHA256 (RFC 2104): block size 64 bytes. -/
def hmacSha256 (key msg : Bytes) : Bytes :=
  let k0 := if 64 < key.length then sha256 key else key
  let k := k0 ++ List.replicate (64 - k0.length) 0
  sha256 ((k.map (Nat.xor 92)) ++ sha256 ((k.map (Nat.xor 54)) ++ msg))

/-- Lowercase hex digit byte for a nibble, as in `bytes.hex()`. -/
def hexLower (n : Nat) : Nat :=
  if n < 10 then 48 + n else 87 + n

/-- `.hexdigest()`: lowercase hex encoding of a digest. -/
def hexDigest (bs : Bytes) : Bytes :=
  (bs.map (fun b => [hexLower (b / 16 % 16), hexLower (b % 16)])).flatten

/-- `BinanceAdapter._sign_params`: copy the parameter dict, set
`timestamp` to the current epoch milliseconds, URL-encode, and append
`&signature=` followed by the hex HMAC-SHA256 of the query keyed by the
API secret. -/
def signParams (params : List (Bytes × Bytes)) (api_secret : Bytes)
    (nowMs : Nat) : Bytes :=
  let signed := dictSet params (strBytes "timestamp") (natDecimal nowMs)
  let query := urlencode signed
  let signature := hexDigest (hmacSha256 api_secret query)
  query ++ strBytes "&signature=" ++ signature

/-!  Observation helpers used to state concrete scenarios. -/

/-- Status of an open order after a replay, or `none`. -/
def openStatusIn (r : Except String TradingState) (cid : String) :
    Option OrderStatus :=
  match r with
  | .ok s => (dictGet s.orders cid).map Order.status
  | .error _ => none

/-- Status of a closed order after a replay, or `none`. -/
def closedStatusIn (r : Except String TradingState) (cid : String) :
    Option OrderStatus :=
  match r with
  | .ok s => (dictGet s.closed_orders cid).map Order.status
  | .error _ => none

/-- `(qty, filled_qty)` of a closed order after a replay, or `none`. -/
def closedQtysIn (r : Except String TradingState) (cid : String) :
    Option (Rat × Rat) :=
  match r with
  | .ok s => (dictGet s.closed_orders cid).map fun o => (o.qty, o.filled_qty)
  | .error _ => none

/-- Number of open orders after a replay, or `none`. -/
def openCountIn (r : Except String TradingState) : Option Nat :=
  match r with
  | .ok s => some s.orders.length
  | .error _ => none

/-- `(qty, avg_entry_price)` of a position after a replay, or `none`. -/
def posQtyAvgIn (r : Except String TradingState) (key : String × String) :
    Option (Rat × Rat) :=
  match r with
  | .ok s => (dictGet s.positions key).map fun p => (p.qty, p.avg_entry_price)
  | .error _ => none

/-- Total traded volume of a list of fills, `Σ qty`. -/
def fillVolume (fs : List FillReceived) : Rat :=
  (fs.map fun f => f.qty).sum

/-- Total notional of a list of fills, `Σ qty · price`. -/
def fillNotional (fs : List FillReceived) : Rat :=
  (fs.map fun f => f.qty * f.price).sum

/-- Modelled from the spec: the volume-weighted mean of the prices of a
list of fills. -/
def vwapOf (fs : List FillReceived) : Rat :=
  fillNotional fs / fillVolume fs

/-!  Concrete fixtures used in scenarios, counterexamples and witnesses. -/

/-- A timezone-aware timestamp. -/
def tsAware : DateTime := ⟨1700000000000, true⟩

/-- A valid BUY fill: 1 unit at price 100, venue trade id `vt99`. -/
def fillA : FillReceived :=
  ⟨"acct", tsAware, "ord1", "vo1", "vt99", "trade1", "cmd1", "BTCUSDT",
   .buy, 1, 100, 0, "BTC", false⟩

/-- `fillA` with a different `venue_trade_id`. -/
def fillB : FillReceived := { fillA with venue_trade_id := "vt100" }

/-- `fillA` with a different `account_id`. -/
def fillC : FillReceived := { fillA with account_id := "acct2" }

/-- The `OrderSubmitIntent` of scenario 4: BUY 2 of BTCUSDT at limit 100,
client order id `ord1`. -/
def c4intent : Event :=
  .orderSubmitIntent
    ⟨"acct", tsAware, "cmd1", "trade1", "ord1", "BTCUSDT", .buy, .limit, 2,
     some 100, none⟩

/-- Scenario 4, first fill: 1 unit at price 100 on order `ord1`. -/
def c4fill1 : Event :=
  .fillReceived
    ⟨"acct", tsAware, "ord1", "vo1", "vt1", "trade1", "cmd1", "BTCUSDT",
     .buy, 1, 100, 0, "BTC", false⟩

/-- Scenario 4, second fill: 1 unit at price 130 on order `ord1`. -/
def c4fill2 : Event :=
  .fillReceived
    ⟨"acct", tsAware, "ord1", "vo1", "vt2", "trade1", "cmd1", "BTCUSDT",
     .buy, 1, 130, 0, "BTC", false⟩

/-- C2 fixture: an `OrderSubmitIntent` for 1 unit on order `ord1`. -/
def c2intent : Event :=
  .orderSubmitIntent
    ⟨"acct", tsAware, "cmd1", "trade1", "ord1", "BTCUSDT", .buy, .limit, 1,
     some 100, none⟩

/-- C2 fixture: a fill of 2 units on order `ord1` (an overfill). -/
def c2fill : FillReceived := { fillA with qty := 2 }

/-- C2 fixture: an open LIMIT order for 2 units with nothing filled. -/
def c2order : Order :=
  ⟨"ord1", none, "acct", "cmd1", "BTCUSDT", .buy, .limit, 2, 0, some 100,
   none, .open_, tsAware, tsAware⟩

/-- C2 fixture: a projection holding `c2order` open. -/
def c2state : TradingState := ⟨"acct", [], [("ord1", c2order)], []⟩

/-- A non-fill event used for sequencing scenarios. -/
def osubEv : Event := .orderSubmitted ⟨"acct", tsAware, "ord1", "vo1"⟩

/-- Sequence numbers already assigned are below the AUTOINCREMENT counter
and appear in strictly increasing table order. -/
def SpineSorted (s : SpineState) : Prop :=
  (∀ r ∈ s.events, r.event_seq < s.next_seq) ∧
  List.Pairwise (· < ·) (s.events.map (fun r => r.event_seq))

/-- All rows belong to epoch `e`, their sequence numbers are exactly
`1, 2, …, n`, and the counter sits at `n + 1`. -/
def SpineDense (e : Nat) (s : SpineState) : Prop :=
  (∀ r ∈ s.events, r.epoch_id = e) ∧
  s.events.map (fun r => r.event_seq) = List.range' 1 s.events.length ∧
  s.next_seq = s.events.length + 1

/-- C3 fixture: BUY 1 at 100 (venue trade `ct1`). -/
def cf1 : FillReceived :=
  ⟨"acct", tsAware, "x1", "vo1", "ct1", "trade1", "cmd1", "BTCUSDT", .buy, 1, 100, 0, "BTC", false⟩

/-- C3 fixture: SELL 1 at 150 (venue trade `ct2`). -/
def cf2 : FillReceived :=
  ⟨"acct", tsAware, "x1", "vo1", "ct2", "trade1", "cmd1", "BTCUSDT", .sell, 1, 150, 0, "BTC", false⟩

/-- C3 fixture: BUY 1 at 200 (venue trade `ct3`). -/
def cf3 : FillReceived :=
  ⟨"acct", tsAware, "x1", "vo1", "ct3", "trade1", "cmd1", "BTCUSDT", .buy, 1, 200, 0, "BTC", false⟩

/-- C10 fixture: BUY 1 at 100 on trade `trade2`, order id `u1` (never an
open order). -/
def nf1 : FillReceived :=
  ⟨"acct", tsAware, "u1", "vo1", "nt1", "trade2", "cmd1", "BTCUSDT", .buy, 1, 100, 0, "BTC", false⟩

/-- C10 fixture: SELL 2 at 100 on trade `trade2` — drives the BUY position
quantity to −1 (warned and tolerated, never clamped). -/
def nf2 : FillReceived := { nf1 with side := .sell, qty := 2, venue_trade_id := "nt2" }

/-- C10 fixture: BUY 1 at 100 on trade `trade2` — a same-side fill that
exactly cancels the −1 position, making the VWAP divisor zero. -/
def nf3 : FillReceived := { nf1 with venue_trade_id := "nt3" }

/-- C10 fixture: a projection with no orders and an existing BUY position
of quantity 1 at price 100 for `("trade1", "acct")`. -/
def c10state : TradingState :=
  ⟨"acct", [(("trade1", "acct"), ⟨"acct", "trade1", "BTCUSDT", OrderSide.buy, 1, 100⟩)], [], []⟩

/-- C9: the failing input — an `Order` whose `order_type` is MARKET and
whose `price` is non-null (all other fields valid). -/
def marketOrderWithPrice : Except String Order :=
  mkOrder "ord1" none "acct" "cmd1" "BTCUSDT" .buy .market 1 0 (some 50000)
    none .submitting tsAware tsAware

/-!  Association-list (Python dict) lemmas. -/

lemma dictGet_dictSet_self {κ α : Type} [DecidableEq κ] (m : List (κ × α))
    (k : κ) (v : α) : dictGet (dictSet m k v) k = some v := by
  induction m with
  | nil => simp [dictSet, dictGet]
  | cons hd tl ih =>
      obtain ⟨k', v'⟩ := hd
      by_cases h : k' = k <;> simp [dictSet, dictGet, h, ih]

lemma dictGet_dictSet_ne {κ α : Type} [DecidableEq κ] (m : List (κ × α))
    (k j : κ) (v : α) (h : k ≠ j) :
    dictGet (dictSet m k v) j = dictGet m j := by
  induction m with
  | nil => simp [dictSet, dictGet, h]
  | cons hd tl ih =>
      obtain ⟨k', v'⟩ := hd
      by_cases hk : k' = k
      · subst hk
        simp [dictSet, dictGet, h]
      · simp [dictSet, dictGet, hk, ih]

lemma mem_dictSet {κ α : Type} [DecidableEq κ] {m : List (κ × α)} {k : κ}
    {v : α} {kv : κ × α} (h : kv ∈ dictSet m k v) : kv ∈ m ∨ kv = (k, v) := by
  induction m with
  | nil => simpa [dictSet] using h
  | cons hd tl ih =>
      obtain ⟨k', v'⟩ := hd
      by_cases hk : k' = k
      · simp [dictSet, hk] at h
        rcases h with h | h
        · right
          simp [h, hk]
        · left
          simp [h]
      · simp [dictSet, hk] at h
        rcases h with h | h
        · left
          simp [h]
        · rcases ih h with h' | h'
          · left
            simp [h']
          · right
            exact h'

lemma mem_dictErase {κ α : Type} [DecidableEq κ] {m : List (κ × α)} {k : κ}
    {kv : κ × α} (h : kv ∈ dictErase m k) : kv ∈ m := by
  induction m with
  | nil => simp [dictErase] at h
  | cons hd tl ih =>
      obtain ⟨k', v'⟩ := hd
      by_cases hk : k' = k
      · simp [dictErase, hk] at h
        simp [h]
      · simp [dictErase, hk] at h
        rcases h with h | h
        · simp [h]
        · simp [ih h]

lemma dictGet_mem {κ α : Type} [DecidableEq κ] {m : List (κ × α)} {k : κ}
    {v : α} (h : dictGet m k = some v) : (k, v) ∈ m := by
  induction m with
  | nil => simp [dictGet] at h
  | cons hd tl ih =>
      obtain ⟨k', v'⟩ := hd
      by_cases hk : k' = k
      · subst hk
        simp [dictGet] at h
        simp [h]
      · simp [dictGet, hk] at h
        simp [ih h]

/-- C9: `Order.__post_init__` accepts a MARKET order with a non-null
price: construction returns the order instead of raising
`InvalidArgument`.  The code contradicts both the spec invariant
("MARKET orders have price=null") and its own test
`test_order_rejects_market_with_price`, which expects a `ValueError`
matching 'MARKET' from exactly this construction. -/
theorem praxis_c9_market_price_accepted :
    marketOrderWithPrice =
      .ok ⟨"ord1", none, "acct", "cmd1", "BTCUSDT", .buy, .market, 1, 0,
           some 50000, none, .submitting, tsAware, tsAware⟩ ∧
    (Except.ok ⟨"ord1", none, "acct", "cmd1", "BTCUSDT", .buy, .market, 1, 0,
      some 50000, none, .submitting, tsAware, tsAware⟩ : Except String Order).isOk
      = true := by
  constructor
  · rfl
  · rfl

/-- C4, counterexample: replaying `submit_intent(qty=2)`,
`fill(qty=1, price=100)`, `fill(qty=1, price=130)` on an empty projection
yields `avg_entry_price = 115`, not the claimed `110`
(`(1·100 + 1·130)/2 = 115`). -/
theorem praxis_c4_counterexample :
    posQtyAvgIn ((TradingState.init "acct").applyAll [c4intent, c4fill1, c4fill2])
      ("trade1", "acct") = some (2, 115) ∧ (115 : Rat) ≠ 110 := by
  constructor
  · norm_num +decide [TradingState.applyAll, List.foldlM, TradingState.apply,
      TradingState.onOrderSubmitIntent, mkOrder, TradingState.onFillReceived,
      TradingState.updateOrderOnFill, TradingState.updatePositionOnFill,
      TradingState.closeOrder, mkPosition, dictGet, dictSet, dictErase,
      TradingState.init, c4intent, c4fill1, c4fill2, posQtyAvgIn, tsAware,
      Except.map, Except.bind, bind]
  · norm_num

/-- C4, amended: the scenario yields position `qty = 2` and
`avg_entry_price = 115` (not 110); the order transitions
SUBMITTING → PARTIALLY_FILLED → FILLED and moves from the open-orders map
to `closed_orders`. -/
theorem praxis_c4_scenario :
    openStatusIn ((TradingState.init "acct").applyAll [c4intent]) "ord1" =
      some .submitting ∧
    openStatusIn ((TradingState.init "acct").applyAll [c4intent, c4fill1]) "ord1" =
      some .partlyFilled ∧
    posQtyAvgIn ((TradingState.init "acct").applyAll [c4intent, c4fill1])
      ("trade1", "acct") = some (1, 100) ∧
    openStatusIn ((TradingState.init "acct").applyAll [c4intent, c4fill1, c4fill2])
      "ord1" = none ∧
    openCountIn ((TradingState.init "acct").applyAll [c4intent, c4fill1, c4fill2]) =
      some 0 ∧
    closedStatusIn ((TradingState.init "acct").applyAll [c4intent, c4fill1, c4fill2])
      "ord1" = some .filled ∧
    posQtyAvgIn ((TradingState.init "acct").applyAll [c4intent, c4fill1, c4fill2])
      ("trade1", "acct") = some (2, 115) := by
  refine ⟨?_, ?_, ?_, ?_, ?_, ?_, ?_⟩ <;>
    norm_num +decide [TradingState.applyAll, List.foldlM, TradingState.apply,
      TradingState.onOrderSubmitIntent, mkOrder, TradingState.onFillReceived,
      TradingState.updateOrderOnFill, TradingState.updatePositionOnFill,
      TradingState.closeOrder, mkPosition, dictGet, dictSet, dictErase,
      TradingState.init, c4intent, c4fill1, c4fill2, posQtyAvgIn, openStatusIn,
      closedStatusIn, openCountIn, tsAware, Except.map, Except.bind, bind]

/-- C6: HTTP status classification of `_raise_on_error`: `< 400` succeeds;
401 raises Authentication; 403, 418, 429 raise RateLimited; `≥ 500` raises
Transient; a 400 whose body parses to `{code, msg}` raises NotFound when
`code ∈ {-2013, -2011}` and otherwise OrderRejected carrying that code and
message; a 400 whose body fails to parse raises OrderRejected with code
`-1` and message `HTTP 400`. -/
theorem praxis_c6_http_classification :
    ∀ (status : Nat) (body : Option (Int × String)),
      (status < 400 → raiseOnError status body = .ok ()) ∧
      (raiseOnError 401 body =
        .error (.authenticationError "Authentication failed: HTTP 401")) ∧
      (status = 403 ∨ status = 418 ∨ status = 429 →
        raiseOnError status body =
          .error (.rateLimitError s!"Rate limited: HTTP {status}")) ∧
      (500 ≤ status →
        raiseOnError status body =
          .error (.transientError s!"Venue server error: HTTP {status}")) ∧
      (∀ (code : Int) (msg : String), code ∈ notFoundCodes →
        raiseOnError 400 (some (code, msg)) =
          .error (.notFoundError s!"Not found: {msg} (code {code})")) ∧
      (∀ (code : Int) (msg : String), code ∉ notFoundCodes →
        raiseOnError 400 (some (code, msg)) =
          .error (.orderRejectedError s!"Order rejected: {msg} (code {code})"
            code msg)) ∧
      (raiseOnError 400 none =
        .error (.orderRejectedError "Order rejected: HTTP 400 (code -1)"
          (-1) "HTTP 400")) := by
  intro status body
  refine ⟨?_, ?_, ?_, ?_, ?_, ?_, ?_⟩
  · intro h
    unfold raiseOnError
    rw [if_pos h]
  · rfl
  · intro h
    unfold raiseOnError
    rw [if_neg (by omega), if_neg (by omega), if_pos h]
  · intro h
    unfold raiseOnError
    rw [if_neg (by omega), if_neg (by omega), if_neg (by omega), if_pos h]
  · intro code msg h
    unfold raiseOnError
    simp only [notFoundCodes, List.mem_cons, List.mem_singleton] at h
    rcases h with h | h | h
    · subst h
      rfl
    · subst h
      rfl
    · simp at h
  · intro code msg h
    unfold raiseOnError
    simp only [notFoundCodes, List.mem_cons, List.mem_singleton, not_or] at h
    rw [if_neg (by omega), if_neg (by omega), if_neg (by omega), if_neg (by omega)]
    simp only [List.mem_cons, List.mem_singleton, notFoundCodes]
    rw [if_neg (by simpa using h)]
  · rfl

/-- C6 witness: concrete classifications at status 200, 401, 418, 500,
and the three 400-body cases. -/
theorem praxis_c6_http_classification_witness :
    raiseOnError 200 none = .ok () ∧
    raiseOnError 418 none = .error (.rateLimitError "Rate limited: HTTP 418") ∧
    raiseOnError 503 none =
      .error (.transientError "Venue server error: HTTP 503") ∧
    raiseOnError 400 (some (-2013, "Order does not exist.")) =
      .error (.notFoundError "Not found: Order does not exist. (code -2013)") ∧
    raiseOnError 400 (some (-1013, "Filter failure")) =
      .error (.orderRejectedError "Order rejected: Filter failure (code -1013)"
        (-1013) "Filter failure") := by
  refine ⟨?_, ?_, ?_, ?_, ?_⟩
  · exact (praxis_c6_http_classification 200 none).1 (by norm_num)
  · exact (praxis_c6_http_classification 418 none).2.2.1 (by norm_num)
  · exact (praxis_c6_http_classification 503 none).2.2.2.1 (by norm_num)
  · exact (praxis_c6_http_classification 400 (some (-2013, "Order does not exist."))).2.2.2.2.1
      (-2013) "Order does not exist." (by decide)
  · exact (praxis_c6_http_classification 400 (some (-1013, "Filter failure"))).2.2.2.2.2.1
      (-1013) "Filter failure" (by decide)

/-- C1: `EventSpine.append` deduplicates `FillReceived` by
`(epoch_id, account_id, venue_trade_id)`: appending the same fill twice in
the same epoch leaves exactly one row in `events` and one in `fill_dedup`,
with the second call returning `none` and leaving the state unchanged;
changing the `venue_trade_id`, the `account_id`, or the `epoch_id` yields
two rows in each table. -/
theorem praxis_c1_fill_dedup :
    ∀ (f f2 f3 : FillReceived) (e e2 : Nat),
      ((spineAppend spineInit (.fillReceived f) e).1 = some 1 ∧
       (spineAppend (spineAppend spineInit (.fillReceived f) e).2
         (.fillReceived f) e).1 = none ∧
       (spineAppend (spineAppend spineInit (.fillReceived f) e).2
         (.fillReceived f) e).2 = (spineAppend spineInit (.fillReceived f) e).2 ∧
       (spineAppend spineInit (.fillReceived f) e).2.events.length = 1 ∧
       (spineAppend spineInit (.fillReceived f) e).2.fill_dedup.length = 1) ∧
      (f2.venue_trade_id ≠ f.venue_trade_id →
        (spineAppend (spineAppend spineInit (.fillReceived f) e).2
          (.fillReceived f2) e).2.events.length = 2 ∧
        (spineAppend (spineAppend spineInit (.fillReceived f) e).2
          (.fillReceived f2) e).2.fill_dedup.length = 2) ∧
      (f3.account_id ≠ f.account_id →
        (spineAppend (spineAppend spineInit (.fillReceived f) e).2
          (.fillReceived f3) e).2.events.length = 2 ∧
        (spineAppend (spineAppend spineInit (.fillReceived f) e).2
          (.fillReceived f3) e).2.fill_dedup.length = 2) ∧
      (e2 ≠ e →
        (spineAppend (spineAppend spineInit (.fillReceived f) e).2
          (.fillReceived f) e2).2.events.length = 2 ∧
        (spineAppend (spineAppend spineInit (.fillReceived f) e).2
          (.fillReceived f) e2).2.fill_dedup.length = 2) := by
  intro f f2 f3 e e2
  refine ⟨⟨?_, ?_, ?_, ?_, ?_⟩, ?_, ?_, ?_⟩
  · simp [spineAppend, spineInit]
  · simp [spineAppend, spineInit]
  · simp [spineAppend, spineInit]
  · simp [spineAppend, spineInit]
  · simp [spineAppend, spineInit]
  · intro h
    constructor <;> simp [spineAppend, spineInit, h]
  · intro h
    constructor <;> simp [spineAppend, spineInit, h]
  · intro h
    constructor <;> simp [spineAppend, spineInit, h]

/-- C1 witness: the dedup behaviour at concrete fills `fillA` (venue trade
id `vt99`), `fillB` (different venue trade id), `fillC` (different
account), and epochs 1 and 2. -/
theorem praxis_c1_fill_dedup_witness :
    fillB.venue_trade_id ≠ fillA.venue_trade_id ∧
    fillC.account_id ≠ fillA.account_id ∧
    (2 : Nat) ≠ 1 ∧
    (spineAppend (spineAppend spineInit (.fillReceived fillA) 1).2
      (.fillReceived fillA) 1).1 = none ∧
    (spineAppend (spineAppend spineInit (.fillReceived fillA) 1).2
      (.fillReceived fillB) 1).2.events.length = 2 ∧
    (spineAppend (spineAppend spineInit (.fillReceived fillA) 1).2
      (.fillReceived fillC) 1).2.events.length = 2 ∧
    (spineAppend (spineAppend spineInit (.fillReceived fillA) 1).2
      (.fillReceived fillA) 2).2.events.length = 2 :=
  ⟨by decide, by decide, by decide,
   (praxis_c1_fill_dedup fillA fillB fillC 1 2).1.2.1,
   ((praxis_c1_fill_dedup fillA fillB fillC 1 2).2.1 (by decide)).1,
   ((praxis_c1_fill_dedup fillA fillB fillC 1 2).2.2.1 (by decide)).1,
   ((praxis_c1_fill_dedup fillA fillB fillC 1 2).2.2.2 (by decide)).1⟩

/-- The retry loop dispatches at most `rem` further attempts. -/
lemma signedRequestGo_calls_le (rand : Nat → Rat) (env : Nat → HttpAttempt) :
    ∀ (rem attempt : Nat) (le : Option VenueErr) (calls : List Nat)
      (sleeps : List Rat) (warns : List Nat),
      (signedRequestGo rand env rem attempt le calls sleeps warns).calls.length ≤
        calls.length + rem := by
  intro rem
  induction rem with
  | zero =>
      intro attempt le calls sleeps warns
      simp [signedRequestGo]
  | succ n ih =>
      intro attempt le calls sleeps warns
      rw [signedRequestGo]
      split
      · split
        · simp
        · split
          · split
            · simp
            · calc (signedRequestGo rand env n (attempt + 1) _ (calls ++ [attempt]) _ _).calls.length
                    ≤ (calls ++ [attempt]).length + n := ih _ _ _ _ _
                _ ≤ calls.length + (n + 1) := by
                    simp
                    omega
          · simp
      · split
        · simp
        · calc (signedRequestGo rand env n (attempt + 1) _ (calls ++ [attempt]) _ _).calls.length
                ≤ (calls ++ [attempt]).length + n := ih _ _ _ _ _
            _ ≤ calls.length + (n + 1) := by
                simp
                omega

/-- C5: `_signed_request` retries only Transient (and transport-level)
errors, dispatches at most 3 attempts, sleeps a delay `rand attempt` drawn
from `uniform(0, 0.5·2^attempt)` before each retry with a warning naming
`attempt + 1`, and raises the last transient error after exhaustion: three
consecutive HTTP 500 responses produce calls 0,1,2, exactly two sleeps
(bounded by 0.5 and 1 seconds) and warnings `1/3` and `2/3`; a response
classified as any non-Transient error is raised from the first attempt
with no sleep and no warning. -/
theorem praxis_c5_retry_policy :
    ∀ (rand : Nat → Rat) (env : Nat → HttpAttempt),
      (∀ n, 0 ≤ rand n ∧ rand n ≤ retryBaseDelay * 2 ^ n) →
      (∀ n, env n = .http 500 none "") →
      ((signedRequest rand env).result =
          .error (.transientError "Venue server error: HTTP 500") ∧
        (signedRequest rand env).calls = [0, 1, 2] ∧
        (signedRequest rand env).sleeps = [rand 0, rand 1] ∧
        (signedRequest rand env).warns = [1, 2] ∧
        0 ≤ rand 0 ∧ rand 0 ≤ 1 / 2 ∧ 0 ≤ rand 1 ∧ rand 1 ≤ 1) ∧
      (∀ env2 : Nat → HttpAttempt,
        (signedRequest rand env2).calls.length ≤ maxRetries) ∧
      (∀ (status : Nat) (body : Option (Int × String)) (data : String)
          (err : VenueErr) (env2 : Nat → HttpAttempt),
        env2 0 = .http status body data →
        raiseOnError status body = .error err →
        err.isTransient = false →
        (signedRequest rand env2).result = .error err ∧
        (signedRequest rand env2).calls = [0] ∧
        (signedRequest rand env2).sleeps = [] ∧
        (signedRequest rand env2).warns = []) := by
  intro rand env hrand henv
  have hrun : signedRequest rand env =
      ⟨.error (.transientError "Venue server error: HTTP 500"), [0, 1, 2],
       [rand 0, rand 1], [1, 2]⟩ := by
    simp [signedRequest, signedRequestGo, henv, raiseOnError,
      VenueErr.isTransient, maxRetries]
    rfl
  refine ⟨⟨?_, ?_, ?_, ?_, (hrand 0).1, ?_, (hrand 1).1, ?_⟩, ?_, ?_⟩
  · rw [hrun]
  · rw [hrun]
  · rw [hrun]
  · rw [hrun]
  · have h := (hrand 0).2
    simpa [retryBaseDelay] using h
  · have h := (hrand 1).2
    rw [retryBaseDelay] at h
    calc rand 1 ≤ 1 / 2 * 2 ^ 1 := h
      _ = 1 := by norm_num
  · intro env2
    simpa [signedRequest] using
      signedRequestGo_calls_le rand env2 maxRetries 0 none [] [] []
  · intro status body data err env2 h0 hro hnt
    have hrun2 : signedRequest rand env2 = ⟨.error err, [0], [], []⟩ := by
      simp [signedRequest, signedRequestGo, maxRetries, h0, hro, hnt]
    rw [hrun2]
    exact ⟨rfl, rfl, rfl, rfl⟩

/-- C5 witness: the three-500s run at the zero random oracle, and the
immediate raise of an Authentication error on attempt 0. -/
theorem praxis_c5_retry_policy_witness :
    (signedRequest (fun _ => 0) (fun _ => HttpAttempt.http 500 none "")).result =
      .error (.transientError "Venue server error: HTTP 500") ∧
    (signedRequest (fun _ => 0) (fun _ => HttpAttempt.http 500 none "")).sleeps =
      [0, 0] ∧
    (signedRequest (fun _ => 0) (fun _ => HttpAttempt.http 500 none "")).warns =
      [1, 2] ∧
    (signedRequest (fun _ => 0) (fun _ => HttpAttempt.http 401 none "")).result =
      .error (.authenticationError "Authentication failed: HTTP 401") ∧
    (signedRequest (fun _ => 0) (fun _ => HttpAttempt.http 401 none "")).warns =
      [] := by
  have h := praxis_c5_retry_policy (fun _ => 0)
    (fun _ => HttpAttempt.http 500 none "")
    (by
      intro n
      constructor
      · norm_num
      · simp only [retryBaseDelay]
        positivity)
    (fun _ => rfl)
  have h401 := h.2.2 401 none ""
    (.authenticationError "Authentication failed: HTTP 401")
    (fun _ => HttpAttempt.http 401 none "") rfl (by rfl) (by rfl)
  exact ⟨h.1.1, h.1.2.2.1, h.1.2.2.2.1, h401.1, h401.2.2.2⟩

/-- A list is a Boolean prefix of itself followed by anything. -/
lemma isPrefixOf_append_self (l r : Bytes) : List.isPrefixOf l (l ++ r) = true := by
  induction l with
  | nil => simp [List.isPrefixOf]
  | cons a t ih => simp [List.isPrefixOf, ih]

/-- SHA-256 digests are 32 bytes long. -/
lemma sha256_length (msg : Bytes) : (sha256 msg).length = 32 := by
  simp [sha256, be32]

/-- Hex encoding doubles the length. -/
lemma hexDigest_length (bs : Bytes) : (hexDigest bs).length = 2 * bs.length := by
  induction bs with
  | nil => rfl
  | cons b t ih =>
      simp [hexDigest] at ih ⊢
      omega

/-- `hexLower` of a nibble is a digit or a lowercase `a`–`f`. -/
lemma hexLower_mem (c : Nat) (h : c < 16) :
    (48 ≤ hexLower c ∧ hexLower c ≤ 57) ∨ (97 ≤ hexLower c ∧ hexLower c ≤ 102) := by
  unfold hexLower
  split <;> omega

/-- Every byte of a hex digest is a lowercase hex character. -/
lemma hexDigest_charset (bs : Bytes) :
    ∀ c ∈ hexDigest bs, (48 ≤ c ∧ c ≤ 57) ∨ (97 ≤ c ∧ c ≤ 102) := by
  intro c hc
  simp [hexDigest, List.mem_flatten] at hc
  obtain ⟨b, _, hb⟩ := hc
  rcases hb with h | h
  · rw [h]
    exact hexLower_mem _ (Nat.mod_lt _ (by norm_num))
  · rw [h]
    exact hexLower_mem _ (Nat.mod_lt _ (by norm_num))

set_option maxRecDepth 100000 in
/-- The HMAC-SHA256 implementation agrees with RFC 4231 test case 2
(key `Jefe`). -/
lemma hmacSha256_rfc4231 :
    hexDigest (hmacSha256 (strBytes "Jefe")
        (strBytes "what do ya want for nothing?")) =
      strBytes "5bdcc146bf60754e6a042426089575c75a003f089d2739839dec58b964ec3843" := by
  decide

/-- C7: for every parameter dictionary `P` and secret `S`, the signed
query string starts with `urlencode(P ∪ {timestamp})` and ends with
`&signature=` followed by exactly the lowercase-hex HMAC-SHA256 of that
preceding query string keyed by `S` (64 lowercase hex characters). -/
theorem praxis_c7_signer :
    ∀ (params : List (Bytes × Bytes)) (secret : Bytes) (nowMs : Nat),
      signParams params secret nowMs =
        urlencode (dictSet params (strBytes "timestamp") (natDecimal nowMs)) ++
          strBytes "&signature=" ++
          hexDigest (hmacSha256 secret
            (urlencode (dictSet params (strBytes "timestamp") (natDecimal nowMs)))) ∧
      List.isPrefixOf
        (urlencode (dictSet params (strBytes "timestamp") (natDecimal nowMs)))
        (signParams params secret nowMs) = true ∧
      (hexDigest (hmacSha256 secret
        (urlencode (dictSet params (strBytes "timestamp") (natDecimal nowMs))))).length
          = 64 ∧
      ∀ c ∈ hexDigest (hmacSha256 secret
          (urlencode (dictSet params (strBytes "timestamp") (natDecimal nowMs)))),
        (48 ≤ c ∧ c ≤ 57) ∨ (97 ≤ c ∧ c ≤ 102) := by
  intro params secret nowMs
  refine ⟨rfl, ?_, ?_, hexDigest_charset _⟩
  · show List.isPrefixOf _ (signParams params secret nowMs) = true
    simp only [signParams]
    rw [List.append_assoc]
    exact isPrefixOf_append_self _ _
  · rw [hexDigest_length]
    have : (hmacSha256 secret
        (urlencode (dictSet params (strBytes "timestamp") (natDecimal nowMs)))).length = 32 := by
      simp only [hmacSha256]
      exact sha256_length _
    rw [this]

/-- A fill for an unknown `client_order_id` leaves the state unchanged by
`_update_order_on_fill`. -/
lemma updateOrderOnFill_of_unknown {s : TradingState} {f : FillReceived}
    (h : dictGet s.orders f.client_order_id = none) :
    s.updateOrderOnFill f = s := by
  simp [TradingState.updateOrderOnFill, h]

/-- C10, amended: a `FillReceived` whose `client_order_id` is not an open
order leaves both order maps unchanged (warn and drop on the order side),
and — provided the fill is not a same-side fill whose quantity exactly
cancels an existing position (`p.qty + f.qty = 0`, possible only when the
position quantity has gone negative) — still creates or updates the
position for `(trade_id, account_id)` with the fill's quantity and price.
In the excluded case the `Decimal` division in
`_update_position_on_fill` raises `DivisionByZero` and no update happens
(see the counterexample). -/
theorem praxis_c10_unknown_order_fill :
    ∀ (s : TradingState) (f : FillReceived),
      f.Valid →
      dictGet s.orders f.client_order_id = none →
      (∀ p, dictGet s.positions (f.trade_id, f.account_id) = some p →
        f.side = p.side → p.qty + f.qty ≠ 0) →
      ∃ s', s.apply (.fillReceived f) = .ok s' ∧
        s'.orders = s.orders ∧
        s'.closed_orders = s.closed_orders ∧
        ((dictGet s.positions (f.trade_id, f.account_id) = none ∧
          dictGet s'.positions (f.trade_id, f.account_id) =
            some ⟨f.account_id, f.trade_id, f.symbol, f.side, f.qty, f.price⟩) ∨
         (∃ p, dictGet s.positions (f.trade_id, f.account_id) = some p ∧
           dictGet s'.positions (f.trade_id, f.account_id) = some (
             if f.side = p.side then
               { p with
                 qty := p.qty + f.qty
                 avg_entry_price :=
                   (p.qty * p.avg_entry_price + f.qty * f.price) / (p.qty + f.qty) }
             else { p with qty := p.qty - f.qty }))) := by
  intro s f hv hunk hpos
  obtain ⟨ha, -, -, -, -, ht, -, hsym, -, hq, hp, -⟩ := hv
  rw [show TradingState.apply s (.fillReceived f) = s.onFillReceived f from rfl]
  unfold TradingState.onFillReceived
  rw [updateOrderOnFill_of_unknown hunk]
  unfold TradingState.updatePositionOnFill
  cases hpk : dictGet s.positions (f.trade_id, f.account_id) with
  | none =>
      refine ⟨{ s with positions := dictSet s.positions (f.trade_id, f.account_id) ⟨f.account_id, f.trade_id, f.symbol, f.side, f.qty, f.price⟩ }, ?_, rfl, rfl, ?_⟩
      · simp [hpk, mkPosition, ha, ht, hsym, Except.map, not_lt.mpr (le_of_lt hq),
          not_lt.mpr (le_of_lt hp)]
      · left
        exact ⟨rfl, by simp [dictGet_dictSet_self]⟩
  | some p =>
      by_cases hside : f.side = p.side
      · have hne : p.qty + f.qty ≠ 0 := hpos p hpk hside
        refine ⟨{ s with positions := dictSet s.positions (f.trade_id, f.account_id) ({ p with qty := p.qty + f.qty, avg_entry_price := (p.qty * p.avg_entry_price + f.qty * f.price) / (p.qty + f.qty) }) }, ?_, rfl, rfl, ?_⟩
        · simp [hpk, hside, hne]
        · right
          exact ⟨p, rfl, by simp [hside, dictGet_dictSet_self]⟩
      · refine ⟨{ s with positions := dictSet s.positions (f.trade_id, f.account_id) ({ p with qty := p.qty - f.qty }) }, ?_, rfl, rfl, ?_⟩
        · simp [hpk, hside]
        · right
          exact ⟨p, rfl, by simp [hside, dictGet_dictSet_self]⟩


/-- C10, counterexample to the original claim: with no open orders, BUY
1@100 then SELL 2@100 leave the position for `("trade2", "acct")` at
quantity −1 (the projection warns and does not clamp); the next same-side
BUY 1@100 makes the VWAP divisor `pos.qty + event.qty = 0`, so `apply`
raises `DivisionByZero` instead of updating the position. -/
theorem praxis_c10_counterexample :
    posQtyAvgIn ((TradingState.init "acct").applyAll
      [.fillReceived nf1, .fillReceived nf2]) ("trade2", "acct") = some (-1, 100) ∧
    openCountIn ((TradingState.init "acct").applyAll
      [.fillReceived nf1, .fillReceived nf2]) = some 0 ∧
    (TradingState.init "acct").applyAll
      [.fillReceived nf1, .fillReceived nf2, .fillReceived nf3] =
        .error "DivisionByZero" := by
  refine ⟨?_, ?_, ?_⟩ <;>
    norm_num +decide [TradingState.applyAll, List.foldlM, TradingState.apply,
      TradingState.onOrderSubmitIntent, mkOrder, TradingState.onFillReceived,
      TradingState.updateOrderOnFill, TradingState.updatePositionOnFill,
      TradingState.closeOrder, mkPosition, dictGet, dictSet, dictErase,
      TradingState.init, nf1, nf2, nf3, posQtyAvgIn, openCountIn, tsAware,
      Except.map, Except.bind, bind]

/-- C10 witness: a same-side fill (`fillA`, BUY 1@100) on a projection
holding an open BUY position of quantity 1: the divisor is 2 ≠ 0, the
order maps stay unchanged and the position merges to quantity 2. -/
theorem praxis_c10_unknown_order_fill_witness :
    fillA.Valid ∧
    ∃ s', c10state.apply (.fillReceived fillA) = .ok s' ∧
      s'.orders = c10state.orders ∧
      s'.closed_orders = c10state.closed_orders ∧
      ((dictGet c10state.positions (fillA.trade_id, fillA.account_id) = none ∧
        dictGet s'.positions (fillA.trade_id, fillA.account_id) =
          some ⟨fillA.account_id, fillA.trade_id, fillA.symbol, fillA.side, fillA.qty, fillA.price⟩) ∨
       (∃ p, dictGet c10state.positions (fillA.trade_id, fillA.account_id) = some p ∧
         dictGet s'.positions (fillA.trade_id, fillA.account_id) = some (
           if fillA.side = p.side then
             { p with qty := p.qty + fillA.qty, avg_entry_price := (p.qty * p.avg_entry_price + fillA.qty * fillA.price) / (p.qty + fillA.qty) }
           else { p with qty := p.qty - fillA.qty }))) := by
  refine ⟨by decide, ?_⟩
  refine praxis_c10_unknown_order_fill c10state fillA (by decide) rfl ?_
  intro p h hs
  simp [c10state, dictGet, fillA] at h
  rw [← h]
  norm_num [fillA]



/-- C2, counterexample: a `FillReceived` whose quantity exceeds the
order's remaining quantity drives `filled_qty` past `qty`: after
`submit_intent(qty=1)` and `fill(qty=2)` the closed order has `qty = 1`
and `filled_qty = 2`, violating `filled_qty ≤ qty`.  The projection
applies `filled_qty += event.qty` with no cap and `__post_init__` runs
only at construction. -/
theorem praxis_c2_counterexample :
    closedQtysIn ((TradingState.init "acct").applyAll [c2intent, .fillReceived c2fill])
      "ord1" = some (1, 2) ∧ ¬ ((2 : Rat) ≤ 1) := by
  constructor
  · norm_num +decide [TradingState.applyAll, List.foldlM, TradingState.apply,
      TradingState.onOrderSubmitIntent, mkOrder, TradingState.onFillReceived,
      TradingState.updateOrderOnFill, TradingState.updatePositionOnFill,
      TradingState.closeOrder, mkPosition, dictGet, dictSet, dictErase,
      TradingState.init, c2intent, c2fill, fillA, closedQtysIn, tsAware,
      Except.map, Except.bind, bind]
  · norm_num

/-- C2, amended: `filled_qty ≤ qty` is enforced at `Order` construction,
and is preserved by `_update_order_on_fill` provided the fill's quantity
does not exceed the order's remaining quantity (`qty − filled_qty`); with
that proviso the bound holds for every order in both the open and the
closed map. -/
theorem praxis_c2_filled_le_qty :
    (∀ (cid : String) (vid : Option String) (acc cmd sym : String)
      (sd : OrderSide) (typ : OrderType) (q fq : Rat) (pr sp : Option Rat)
      (st : OrderStatus) (ca ua : DateTime) (o : Order),
      mkOrder cid vid acc cmd sym sd typ q fq pr sp st ca ua = .ok o →
      o.filled_qty ≤ o.qty) ∧
    (∀ (s : TradingState) (f : FillReceived),
      (∀ kv ∈ s.orders, (kv : String × Order).2.filled_qty ≤ kv.2.qty) →
      (∀ kv ∈ s.closed_orders, (kv : String × Order).2.filled_qty ≤ kv.2.qty) →
      (∀ o, dictGet s.orders f.client_order_id = some o →
        f.qty ≤ o.qty - o.filled_qty) →
      (∀ kv ∈ (s.updateOrderOnFill f).orders,
        (kv : String × Order).2.filled_qty ≤ kv.2.qty) ∧
      (∀ kv ∈ (s.updateOrderOnFill f).closed_orders,
        (kv : String × Order).2.filled_qty ≤ kv.2.qty)) := by
  constructor
  · intro cid vid acc cmd sym sd typ q fq pr sp st ca ua o h
    unfold mkOrder at h
    split_ifs at h with h1 h2 h3 h4 h5 h6 h7
    all_goals try simp at h
    cases h
    exact le_of_not_lt h7
  · intro s f h1 h2 h3
    unfold TradingState.updateOrderOnFill
    cases hko : dictGet s.orders f.client_order_id with
    | none =>
        simp only [hko]
        exact ⟨h1, h2⟩
    | some o =>
        have hrem := h3 o hko
        have hok : o.filled_qty + f.qty ≤ o.qty := by linarith
        simp only [hko]
        split_ifs with hfull
        · unfold TradingState.closeOrder
          simp only [dictGet_dictSet_self]
          constructor
          · intro kv hkv
            rcases mem_dictSet (mem_dictErase hkv) with hm | he
            · exact h1 kv hm
            · rw [he]
              exact hok
          · intro kv hkv
            rcases mem_dictSet hkv with hm | he
            · exact h2 kv hm
            · rw [he]
              exact hok
        · constructor
          · intro kv hkv
            rcases mem_dictSet hkv with hm | he
            · exact h1 kv hm
            · rw [he]
              exact hok
          · exact h2



/-- C2 witness: construction of a valid order satisfies the bound, and a
1-unit fill on the open 2-unit order preserves it in both maps. -/
theorem praxis_c2_filled_le_qty_witness :
    (mkOrder "ord1" none "acct" "cmd1" "BTCUSDT" .buy .limit 2 1 (some 100)
        none .partlyFilled tsAware tsAware = .ok { c2order with filled_qty := 1, status := .partlyFilled } ∧
      ({ c2order with filled_qty := 1, status := OrderStatus.partlyFilled } : Order).filled_qty ≤
        ({ c2order with filled_qty := 1, status := OrderStatus.partlyFilled } : Order).qty) ∧
    ((∀ kv ∈ (c2state.updateOrderOnFill fillA).orders,
        (kv : String × Order).2.filled_qty ≤ kv.2.qty) ∧
      (∀ kv ∈ (c2state.updateOrderOnFill fillA).closed_orders,
        (kv : String × Order).2.filled_qty ≤ kv.2.qty)) := by
  constructor
  · constructor
    · norm_num +decide [mkOrder, tsAware, c2order]
    · exact praxis_c2_filled_le_qty.1 "ord1" none "acct" "cmd1" "BTCUSDT" .buy
        .limit 2 1 (some 100) none .partlyFilled tsAware tsAware _
        (by norm_num +decide [mkOrder, tsAware, c2order])
  · refine praxis_c2_filled_le_qty.2 c2state fillA ?_ ?_ ?_
    · intro kv hkv
      simp [c2state] at hkv
      rw [hkv]
      norm_num [c2order]
    · intro kv hkv
      simp [c2state] at hkv
    · intro o ho
      simp [c2state, dictGet] at ho
      rw [← ho.2]
      norm_num [c2order, fillA]



/-- Inserting a row at the current counter preserves `SpineSorted`. -/
lemma sorted_push (s : SpineState) (dd : List (Nat × String × String))
    (ev : Event) (e : Nat) (h : SpineSorted s) :
    SpineSorted ⟨s.events ++ [⟨s.next_seq, e, ev.timestamp, ev.typeName, ev⟩], dd, s.next_seq + 1⟩ := by
  obtain ⟨hlt, hpw⟩ := h
  constructor
  · intro r hr
    rcases List.mem_append.mp hr with hm | hm
    · exact lt_trans (hlt r hm) (Nat.lt_succ_self _)
    · simp at hm
      rw [hm]
      exact Nat.lt_succ_self _
  · rw [List.map_append]
    simp only [List.map_cons, List.map_nil, List.pairwise_append]
    refine ⟨hpw, by simp, ?_⟩
    intro a ha b hb
    simp at hb
    subst hb
    simp at ha
    obtain ⟨r, hr, hrs⟩ := ha
    rw [← hrs]
    exact hlt r hr

/-- `append` preserves `SpineSorted` (dedup drops change nothing). -/
lemma spineAppend_sorted (s : SpineState) (ev : Event) (e : Nat)
    (h : SpineSorted s) : SpineSorted (spineAppend s ev e).2 := by
  cases ev with
  | fillReceived f =>
      by_cases hm : (e, f.account_id, f.venue_trade_id) ∈ s.fill_dedup
      · simpa [spineAppend, hm] using h
      · have := sorted_push { s with fill_dedup := s.fill_dedup ++ [(e, f.account_id, f.venue_trade_id)] } (s.fill_dedup ++ [(e, f.account_id, f.venue_trade_id)]) (.fillReceived f) e (by exact h)
        simpa [spineAppend, hm] using this
  | commandAccepted x => simpa [spineAppend] using sorted_push s s.fill_dedup (.commandAccepted x) e h
  | orderSubmitIntent x => simpa [spineAppend] using sorted_push s s.fill_dedup (.orderSubmitIntent x) e h
  | orderSubmitted x => simpa [spineAppend] using sorted_push s s.fill_dedup (.orderSubmitted x) e h
  | orderSubmitFailed x => simpa [spineAppend] using sorted_push s s.fill_dedup (.orderSubmitFailed x) e h
  | orderAcked x => simpa [spineAppend] using sorted_push s s.fill_dedup (.orderAcked x) e h
  | orderRejected x => simpa [spineAppend] using sorted_push s s.fill_dedup (.orderRejected x) e h
  | orderCanceled x => simpa [spineAppend] using sorted_push s s.fill_dedup (.orderCanceled x) e h
  | orderExpired x => simpa [spineAppend] using sorted_push s s.fill_dedup (.orderExpired x) e h
  | tradeClosed x => simpa [spineAppend] using sorted_push s s.fill_dedup (.tradeClosed x) e h

/-- Any sequence of `append` calls preserves `SpineSorted`. -/
lemma spineAppendAll_sorted (ops : List (Event × Nat)) :
    ∀ s, SpineSorted s → SpineSorted (spineAppendAll s ops) := by
  induction ops with
  | nil => intro s h; simpa [spineAppendAll] using h
  | cons op rest ih =>
      intro s h
      have h1 := spineAppend_sorted s op.1 op.2 h
      have := ih (spineAppend s op.1 op.2).2 h1
      simpa [spineAppendAll] using this
end Praxis

namespace Praxis

/-- Inserting a row of epoch `e` at the counter preserves `SpineDense`. -/
lemma dense_push (e : Nat) (s : SpineState) (dd : List (Nat × String × String))
    (ev : Event) (h : SpineDense e s) :
    SpineDense e ⟨s.events ++ [⟨s.next_seq, e, ev.timestamp, ev.typeName, ev⟩], dd, s.next_seq + 1⟩ := by
  obtain ⟨hep, hmap, hnext⟩ := h
  refine ⟨?_, ?_, ?_⟩
  · intro r hr
    rcases List.mem_append.mp hr with hm | hm
    · exact hep r hm
    · simp at hm
      rw [hm]
  · rw [List.map_append, hmap, hnext]
    have hrc := @List.range'_concat 1 1 s.events.length
    simp at hrc ⊢
    rw [hrc]
    simp [Nat.add_comm]
  · simp [hnext]

/-- `append` into epoch `e` preserves `SpineDense e`. -/
lemma spineAppend_dense (e : Nat) (s : SpineState) (ev : Event)
    (h : SpineDense e s) : SpineDense e (spineAppend s ev e).2 := by
  cases ev with
  | fillReceived f =>
      by_cases hm : (e, f.account_id, f.venue_trade_id) ∈ s.fill_dedup
      · simpa [spineAppend, hm] using h
      · have := dense_push e { s with fill_dedup := s.fill_dedup ++ [(e, f.account_id, f.venue_trade_id)] } (s.fill_dedup ++ [(e, f.account_id, f.venue_trade_id)]) (.fillReceived f) (by exact h)
        simpa [spineAppend, hm] using this
  | commandAccepted x => simpa [spineAppend] using dense_push e s s.fill_dedup (.commandAccepted x) h
  | orderSubmitIntent x => simpa [spineAppend] using dense_push e s s.fill_dedup (.orderSubmitIntent x) h
  | orderSubmitted x => simpa [spineAppend] using dense_push e s s.fill_dedup (.orderSubmitted x) h
  | orderSubmitFailed x => simpa [spineAppend] using dense_push e s s.fill_dedup (.orderSubmitFailed x) h
  | orderAcked x => simpa [spineAppend] using dense_push e s s.fill_dedup (.orderAcked x) h
  | orderRejected x => simpa [spineAppend] using dense_push e s s.fill_dedup (.orderRejected x) h
  | orderCanceled x => simpa [spineAppend] using dense_push e s s.fill_dedup (.orderCanceled x) h
  | orderExpired x => simpa [spineAppend] using dense_push e s s.fill_dedup (.orderExpired x) h
  | tradeClosed x => simpa [spineAppend] using dense_push e s s.fill_dedup (.tradeClosed x) h

/-- A run of appends all targeting epoch `e` preserves `SpineDense e`. -/
lemma spineAppendAll_dense (e : Nat) (ops : List (Event × Nat))
    (hops : ∀ op ∈ ops, (op : Event × Nat).2 = e) :
    ∀ s, SpineDense e s → SpineDense e (spineAppendAll s ops) := by
  induction ops with
  | nil => intro s h; simpa [spineAppendAll] using h
  | cons op rest ih =>
      intro s h
      have hope : op.2 = e := hops op (by simp)
      have h1 : SpineDense e (spineAppend s op.1 op.2).2 := by
        rw [hope]
        exact spineAppend_dense e s op.1 h
      have := ih (fun o ho => hops o (by simp [ho])) (spineAppend s op.1 op.2).2 h1
      simpa [spineAppendAll] using this

/-- C8, amended: within one epoch the assigned sequence numbers are
always strictly increasing; they are additionally dense (consecutive from
1) when the appends are not interleaved with appends to other epochs —
`event_seq` is a single table-wide AUTOINCREMENT counter, so interleaved
epochs leave gaps. -/
theorem praxis_c8_seq_amended :
    (∀ (ops : List (Event × Nat)) (epoch : Nat),
      List.Pairwise (· < ·) (seqsOf epoch (spineAppendAll spineInit ops))) ∧
    (∀ (ops : List (Event × Nat)) (epoch : Nat),
      (∀ op ∈ ops, (op : Event × Nat).2 = epoch) →
      seqsOf epoch (spineAppendAll spineInit ops) =
        List.range' 1 (spineAppendAll spineInit ops).events.length) := by
  constructor
  · intro ops epoch
    have hs := spineAppendAll_sorted ops spineInit ⟨by simp [spineInit], by simp [spineInit]⟩
    exact hs.2.sublist ((List.filter_sublist _).map _)
  · intro ops epoch hops
    have hd := spineAppendAll_dense epoch ops hops spineInit ⟨by simp [spineInit], by simp [spineInit], by simp [spineInit]⟩
    obtain ⟨hep, hmap, -⟩ := hd
    unfold seqsOf
    rw [List.filter_eq_self.mpr, hmap]
    intro r hr
    simp [hep r hr]

/-- C8, counterexample: interleaving an append to epoch 2 between two
appends to epoch 1 assigns epoch 1 the sequence numbers `[1, 3]`, which
are strictly increasing but not consecutive: the claim's density under
interleaving fails. -/
theorem praxis_c8_counterexample :
    seqsOf 1 (spineAppendAll spineInit [(osubEv, 1), (osubEv, 2), (osubEv, 1)]) = [1, 3] ∧
    ¬ List.Chain' (fun x y => y = x + 1) [1, 3] := by
  constructor
  · decide
  · norm_num [List.chain'_cons]

/-- C8 witness: two appends, both to epoch 1, get the dense sequence
numbers `[1, 2]`. -/
theorem praxis_c8_seq_amended_witness :
    (∀ op ∈ [(osubEv, 1), (osubEv, 1)], (op : Event × Nat).2 = 1) ∧
    seqsOf 1 (spineAppendAll spineInit [(osubEv, 1), (osubEv, 1)]) =
      List.range' 1 (spineAppendAll spineInit [(osubEv, 1), (osubEv, 1)]).events.length :=
  ⟨by decide, praxis_c8_seq_amended.2 [(osubEv, 1), (osubEv, 1)] 1 (by decide)⟩

/-- `_update_order_on_fill` never touches the positions map. -/
lemma updateOrderOnFill_positions (s : TradingState) (f : FillReceived) :
    (s.updateOrderOnFill f).positions = s.positions := by
  unfold TradingState.updateOrderOnFill TradingState.closeOrder
  cases h : dictGet s.orders f.client_order_id with
  | none => simp only [h]
  | some o =>
      simp only [h]
      split_ifs
      · split <;> rfl
      · rfl

/-- Unfolding one step of replay. -/
lemma applyAll_cons (s : TradingState) (e : Event) (evs : List Event) :
    s.applyAll (e :: evs) = (s.apply e) >>= fun s1 => s1.applyAll evs := by
  simp [TradingState.applyAll]

/-- Replay of a concatenation is sequential replay. -/
lemma applyAll_append (s : TradingState) (l1 l2 : List Event) :
    s.applyAll (l1 ++ l2) = s.applyAll l1 >>= fun s1 => s1.applyAll l2 := by
  simp [TradingState.applyAll, List.foldlM_append]

/-- Volume of a cons. -/
lemma fillVolume_cons (f : FillReceived) (fs : List FillReceived) :
    fillVolume (f :: fs) = f.qty + fillVolume fs := by
  simp [fillVolume]

/-- Notional of a cons. -/
lemma fillNotional_cons (f : FillReceived) (fs : List FillReceived) :
    fillNotional (f :: fs) = f.qty * f.price + fillNotional fs := by
  simp [fillNotional]

/-- A fill with no existing position creates one from the fill. -/
lemma apply_fill_create (s : TradingState) (f : FillReceived)
    (hk : dictGet s.positions (f.trade_id, f.account_id) = none) (hv : f.Valid) :
    ∃ s', s.apply (.fillReceived f) = .ok s' ∧
      s'.positions = dictSet s.positions (f.trade_id, f.account_id) ⟨f.account_id, f.trade_id, f.symbol, f.side, f.qty, f.price⟩ := by
  obtain ⟨ha, -, -, -, -, ht, -, hsym, -, hq, hp, -⟩ := hv
  rw [show TradingState.apply s (.fillReceived f) = s.onFillReceived f from rfl]
  unfold TradingState.onFillReceived TradingState.updatePositionOnFill
  rw [updateOrderOnFill_positions]
  refine ⟨{ s.updateOrderOnFill f with positions := dictSet s.positions (f.trade_id, f.account_id) ⟨f.account_id, f.trade_id, f.symbol, f.side, f.qty, f.price⟩ }, ?_, rfl⟩
  simp [hk, mkPosition, ha, ht, hsym, Except.map, not_lt.mpr (le_of_lt hq),
    not_lt.mpr (le_of_lt hp)]

/-- A same-side fill merges with the incremental VWAP. -/
lemma apply_fill_same (s : TradingState) (f : FillReceived) (p : Position)
    (hk : dictGet s.positions (f.trade_id, f.account_id) = some p)
    (hside : f.side = p.side) (hqp : 0 < p.qty) (hq : 0 < f.qty) :
    ∃ s', s.apply (.fillReceived f) = .ok s' ∧
      s'.positions = dictSet s.positions (f.trade_id, f.account_id) ({ p with qty := p.qty + f.qty, avg_entry_price := (p.qty * p.avg_entry_price + f.qty * f.price) / (p.qty + f.qty) }) := by
  have hne : p.qty + f.qty ≠ 0 := ne_of_gt (by linarith)
  rw [show TradingState.apply s (.fillReceived f) = s.onFillReceived f from rfl]
  unfold TradingState.onFillReceived TradingState.updatePositionOnFill
  rw [updateOrderOnFill_positions]
  refine ⟨{ s.updateOrderOnFill f with positions := dictSet s.positions (f.trade_id, f.account_id) ({ p with qty := p.qty + f.qty, avg_entry_price := (p.qty * p.avg_entry_price + f.qty * f.price) / (p.qty + f.qty) }) }, ?_, rfl⟩
  simp [hk, hside, hne]

/-- An opposite-side fill decrements `qty`, preserving everything else. -/
lemma apply_fill_opp (s : TradingState) (f : FillReceived) (p : Position)
    (hk : dictGet s.positions (f.trade_id, f.account_id) = some p)
    (hside : ¬ f.side = p.side) :
    ∃ s', s.apply (.fillReceived f) = .ok s' ∧
      s'.positions = dictSet s.positions (f.trade_id, f.account_id) ({ p with qty := p.qty - f.qty }) := by
  rw [show TradingState.apply s (.fillReceived f) = s.onFillReceived f from rfl]
  unfold TradingState.onFillReceived TradingState.updatePositionOnFill
  rw [updateOrderOnFill_positions]
  refine ⟨{ s.updateOrderOnFill f with positions := dictSet s.positions (f.trade_id, f.account_id) ({ p with qty := p.qty - f.qty }) }, ?_, rfl⟩
  simp [hk, hside]

/-- Folding a block of same-side fills onto an existing position of that
side accumulates volume and notional: the result is the combined
volume-weighted average. -/
lemma same_side_run (sd : OrderSide) (t a : String) :
    ∀ (fs : List FillReceived) (s : TradingState) (p : Position),
      (∀ f ∈ fs, f.Valid ∧ f.side = sd ∧ f.trade_id = t ∧ f.account_id = a) →
      dictGet s.positions (t, a) = some p →
      p.side = sd → 0 < p.qty →
      ∃ s' p', s.applyAll (fs.map .fillReceived) = .ok s' ∧
        dictGet s'.positions (t, a) = some p' ∧
        p'.side = sd ∧ p'.qty = p.qty + fillVolume fs ∧ 0 < p'.qty ∧
        p'.avg_entry_price = (p.qty * p.avg_entry_price + fillNotional fs) / (p.qty + fillVolume fs) := by
  intro fs
  induction fs with
  | nil =>
      intro s p hfs hk hside hq
      refine ⟨s, p, ?_, hk, hside, ?_, hq, ?_⟩
      · simp [TradingState.applyAll, List.foldlM]
        rfl
      · simp [fillVolume]
      · rw [show fillNotional [] = 0 from rfl, show fillVolume [] = 0 from rfl, add_zero, add_zero,
          mul_div_cancel_left₀ _ (ne_of_gt hq)]
  | cons f fs ih =>
      intro s p hfs hk hside hq
      obtain ⟨hv, hfside, hft, hfa⟩ := hfs f (by simp)
      have hq0 : 0 < f.qty := hv.2.2.2.2.2.2.2.2.2.1
      have hkey : dictGet s.positions (f.trade_id, f.account_id) = some p := by
        rw [hft, hfa]
        exact hk
      obtain ⟨s1, happ, hpos1⟩ := apply_fill_same s f p hkey (by rw [hfside, hside]) hq hq0
      have hk1 : dictGet s1.positions (t, a) = some ({ p with qty := p.qty + f.qty, avg_entry_price := (p.qty * p.avg_entry_price + f.qty * f.price) / (p.qty + f.qty) }) := by
        rw [hpos1, hft, hfa]
        exact dictGet_dictSet_self _ _ _
      obtain ⟨s', p', hall, hk', hside', hqty', hpos', havg'⟩ :=
        ih s1 _ (fun g hg => hfs g (by simp [hg])) hk1 hside (by simp; linarith)
      refine ⟨s', p', ?_, hk', hside', ?_, hpos', ?_⟩
      · rw [List.map_cons, applyAll_cons, happ]
        simpa using hall
      · rw [hqty', fillVolume_cons]
        simp only []
        ring
      · rw [havg', fillVolume_cons, fillNotional_cons]
        have hne : p.qty + f.qty ≠ 0 := ne_of_gt (by linarith)
        simp only []
        rw [← mul_div_assoc, mul_div_cancel_left₀ _ hne]
        ring_nf

/-- Folding a block of opposite-side fills decrements `qty` by their
volume and never changes `avg_entry_price`. -/
lemma opp_side_run (sd : OrderSide) (t a : String) :
    ∀ (fs : List FillReceived) (s : TradingState) (p : Position),
      (∀ f ∈ fs, f.side ≠ sd ∧ f.trade_id = t ∧ f.account_id = a) →
      dictGet s.positions (t, a) = some p →
      p.side = sd →
      ∃ s' p', s.applyAll (fs.map .fillReceived) = .ok s' ∧
        dictGet s'.positions (t, a) = some p' ∧
        p'.side = sd ∧ p'.qty = p.qty - fillVolume fs ∧
        p'.avg_entry_price = p.avg_entry_price := by
  intro fs
  induction fs with
  | nil =>
      intro s p hfs hk hside
      refine ⟨s, p, ?_, hk, hside, ?_, rfl⟩
      · simp [TradingState.applyAll, List.foldlM]
        rfl
      · simp [fillVolume]
  | cons f fs ih =>
      intro s p hfs hk hside
      obtain ⟨hfside, hft, hfa⟩ := hfs f (by simp)
      have hkey : dictGet s.positions (f.trade_id, f.account_id) = some p := by
        rw [hft, hfa]
        exact hk
      obtain ⟨s1, happ, hpos1⟩ := apply_fill_opp s f p hkey (by rw [hside]; exact hfside)
      have hk1 : dictGet s1.positions (t, a) = some ({ p with qty := p.qty - f.qty }) := by
        rw [hpos1, hft, hfa]
        exact dictGet_dictSet_self _ _ _
      obtain ⟨s', p', hall, hk', hside', hqty', havg'⟩ :=
        ih s1 _ (fun g hg => hfs g (by simp [hg])) hk1 hside
      refine ⟨s', p', ?_, hk', hside', ?_, havg'⟩
      · rw [List.map_cons, applyAll_cons, happ]
        simpa using hall
      · rw [hqty', fillVolume_cons]
        simp only []
        ring

/-- C3, amended: when the fills for `(trade_id, account_id)` arrive as a
non-empty block of same-side fills followed only by opposite-side fills,
the position's `avg_entry_price` equals the volume-weighted mean of the
same-side fill prices, and the opposite-side fills change `qty` but never
`avg_entry_price`.  (Interleaving a same-side fill after an opposite-side
fill breaks the equality, because the merge weights by the decremented
position quantity — see the counterexample.) -/
theorem praxis_c3_vwap_amended :
    ∀ (sd : OrderSide) (t a : String) (first : FillReceived)
      (rest opp : List FillReceived) (s0 : TradingState),
      (first.Valid ∧ first.side = sd ∧ first.trade_id = t ∧ first.account_id = a) →
      (∀ f ∈ rest, f.Valid ∧ f.side = sd ∧ f.trade_id = t ∧ f.account_id = a) →
      (∀ f ∈ opp, f.side ≠ sd ∧ f.trade_id = t ∧ f.account_id = a) →
      dictGet s0.positions (t, a) = none →
      ∃ s' p', s0.applyAll (((first :: rest) ++ opp).map .fillReceived) = .ok s' ∧
        dictGet s'.positions (t, a) = some p' ∧
        p'.side = sd ∧
        p'.avg_entry_price = vwapOf (first :: rest) ∧
        p'.qty = fillVolume (first :: rest) - fillVolume opp := by
  intro sd t a first rest opp s0 hfirst hrest hopp hnone
  obtain ⟨hv, hfside, hft, hfa⟩ := hfirst
  have hq0 : 0 < first.qty := hv.2.2.2.2.2.2.2.2.2.1
  have hp0 : 0 < first.price := hv.2.2.2.2.2.2.2.2.2.2.1
  have hkey : dictGet s0.positions (first.trade_id, first.account_id) = none := by
    rw [hft, hfa]
    exact hnone
  obtain ⟨s1, happ, hpos1⟩ := apply_fill_create s0 first hkey hv
  have hk1 : dictGet s1.positions (t, a) =
      some ⟨first.account_id, first.trade_id, first.symbol, first.side, first.qty, first.price⟩ := by
    rw [hpos1, hft, hfa]
    exact dictGet_dictSet_self _ _ _
  obtain ⟨s2, p2, hall2, hk2, hside2, hqty2, hpos2, havg2⟩ :=
    same_side_run sd t a rest s1 _ hrest hk1 hfside hq0
  obtain ⟨s3, p3, hall3, hk3, hside3, hqty3, havg3⟩ :=
    opp_side_run sd t a opp s2 p2 hopp hk2 hside2
  refine ⟨s3, p3, ?_, hk3, hside3, ?_, ?_⟩
  · have htail : s1.applyAll (List.map Event.fillReceived (rest ++ opp)) = .ok s3 := by
      rw [List.map_append, applyAll_append, hall2]
      simpa using hall3
    rw [show ((first :: rest) ++ opp) = first :: (rest ++ opp) from rfl,
      List.map_cons, applyAll_cons, happ]
    simpa using htail
  · rw [havg3, havg2, vwapOf, fillNotional_cons, fillVolume_cons]
  · rw [hqty3, hqty2, fillVolume_cons]




/-- C3, counterexample: interleaving an opposite-side fill between two
same-side fills breaks the volume-weighted-mean property.  BUY 1@100,
SELL 1@150, BUY 1@200 leaves the position at `avg_entry_price = 200`,
while the volume-weighted mean of the same-side (BUY) fills is 150: the
second merge weights the old average by the decremented quantity 0. -/
theorem praxis_c3_counterexample :
    posQtyAvgIn ((TradingState.init "acct").applyAll
      [.fillReceived cf1, .fillReceived cf2, .fillReceived cf3]) ("trade1", "acct") =
        some (1, 200) ∧
    vwapOf [cf1, cf3] = 150 ∧
    (200 : Rat) ≠ 150 := by
  refine ⟨?_, ?_, by norm_num⟩
  · norm_num +decide [TradingState.applyAll, List.foldlM, TradingState.apply,
      TradingState.onOrderSubmitIntent, mkOrder, TradingState.onFillReceived,
      TradingState.updateOrderOnFill, TradingState.updatePositionOnFill,
      TradingState.closeOrder, mkPosition, dictGet, dictSet, dictErase,
      TradingState.init, cf1, cf2, cf3, posQtyAvgIn, tsAware,
      Except.map, Except.bind, bind]
  · norm_num [vwapOf, fillNotional, fillVolume, cf1, cf3]

/-- C3 witness: BUY 1@100 then BUY 1@200, followed by SELL 1@150, on the
empty projection: the average is the VWAP 150 of the two buys and the
quantity is 2 − 1. -/
theorem praxis_c3_vwap_amended_witness :
    (cf1.Valid ∧ cf1.side = OrderSide.buy ∧ cf1.trade_id = "trade1" ∧
      cf1.account_id = "acct") ∧
    ∃ s' p', (TradingState.init "acct").applyAll
        (((cf1 :: [cf3]) ++ [cf2]).map .fillReceived) = .ok s' ∧
      dictGet s'.positions ("trade1", "acct") = some p' ∧
      p'.side = OrderSide.buy ∧
      p'.avg_entry_price = vwapOf (cf1 :: [cf3]) ∧
      p'.qty = fillVolume (cf1 :: [cf3]) - fillVolume [cf2] := by
  refine ⟨by decide, ?_⟩
  exact praxis_c3_vwap_amended .buy "trade1" "acct" cf1 [cf3] [cf2]
    (TradingState.init "acct") (by decide) (by decide) (by decide) rfl

end Praxis
